import Mathlib

/-!
Verification of the Content-Authenticity-Verifier engine (TextAnalyzer and
ImageAnalyzer modules) against its natural-language specification.

The JavaScript source is shallowly embedded: numbers are exact rationals,
with an explicit `JsNum` type that carries the IEEE NaN value where the
source can produce one (division of zero by zero on degenerate inputs);
`Math.round` is `⌊q + 1/2⌋` (JS rounds half toward +∞); asynchronous remote
calls are functions over an explicit list of HTTP responses consumed in
order, recording the requests and delays they perform.
-/

set_option maxRecDepth 20000

/-- JavaScript number restricted to the values this program can produce:
an exact rational or NaN. Infinities are unreachable in the embedded code
(every division by zero in the source has a zero numerator). -/
inductive JsNum where
  | nan : JsNum
  | num : ℚ → JsNum
deriving DecidableEq

namespace JsNum

def jadd : JsNum → JsNum → JsNum
  | num a, num b => num (a + b)
  | _, _ => nan

def jsub : JsNum → JsNum → JsNum
  | num a, num b => num (a - b)
  | _, _ => nan

def jmul : JsNum → JsNum → JsNum
  | num a, num b => num (a * b)
  | _, _ => nan

/-- JS division as used in this program: `0/0` is NaN; a nonzero numerator
over zero (infinity) never occurs in the embedded code, as every divisor
that can be zero is a list length whose zero case forces a zero numerator. -/
def jdiv : JsNum → JsNum → JsNum
  | num a, num b => if b = 0 then nan else num (a / b)
  | _, _ => nan

/-- Math.min against a constant: NaN propagates. -/
def jminC (x : JsNum) (c : ℚ) : JsNum :=
  match x with
  | num a => num (min a c)
  | nan => nan

/-- Comparison `x < c`: false when x is NaN, as in JS. -/
def jltB (x : JsNum) (c : ℚ) : Bool :=
  match x with
  | num a => decide (a < c)
  | nan => false

/-- Comparison `x > c`: false when x is NaN, as in JS. -/
def jgtB (x : JsNum) (c : ℚ) : Bool :=
  match x with
  | num a => decide (c < a)
  | nan => false

def isNumB : JsNum → Bool
  | num _ => true
  | nan => false

end JsNum

open JsNum

/-- JS `Math.round` on a finite value: half-values round toward +∞. -/
def jsRound (q : ℚ) : ℤ := ⌊q + 1 / 2⌋

/-- Math.round lifted to JsNum (Math.round(NaN) is NaN). -/
def jroundJ : JsNum → JsNum
  | JsNum.num a => JsNum.num (jsRound a)
  | JsNum.nan => JsNum.nan

/-- Exact value of `Math.round (Math.sqrt x)` for a nonnegative rational x,
computed without real numbers: `⌊√x + 1/2⌋ = (⌊√(4x)⌋ + 1) / 2` (Nat
division), and `⌊√(4x)⌋ = Nat.sqrt ⌊4x⌋`. -/
def jsRoundSqrtQ (x : ℚ) : ℕ := (Nat.sqrt (Int.toNat ⌊4 * x⌋) + 1) / 2

/-- JS `Math.max lo (Math.min hi x)` clamp on integers. -/
def clampZ (lo hi x : ℤ) : ℤ := max lo (min hi x)

/-- Whitespace class of the JS regex `\s` (ASCII part; the source is only
applied to ordinary text). -/
def isWsChar (c : Char) : Bool :=
  c = ' ' ∨ c = '\t' ∨ c = '\n' ∨ c = '\r' ∨ c = Char.ofNat 11 ∨ c = Char.ofNat 12

/-- Sentence-separator class of the JS regex `[.!?]`. -/
def isSentSep (c : Char) : Bool := c = '.' ∨ c = '!' ∨ c = '?'

/-- Core of JS `String.prototype.split` against a one-character-class regex
with `+`: pieces between maximal separator runs, including the (possibly
empty) piece before the first run and after the last run. The Bool state
is true while skipping a separator run. -/
def splitRunAux (p : Char → Bool) : List Char → List Char → Bool → List (List Char)
  | [], cur, inSep => if inSep then [[]] else [cur.reverse]
  | c :: rest, cur, inSep =>
    if inSep then
      if p c then splitRunAux p rest [] true
      else splitRunAux p rest [c] false
    else
      if p c then cur.reverse :: splitRunAux p rest [] true
      else splitRunAux p rest (c :: cur) false

/-- JS `s.split(/\s+/)`. -/
def jsSplitWs (s : String) : List String :=
  (splitRunAux isWsChar s.toList [] false).map (fun cs => String.mk cs)

/-- JS `s.split(/[.!?]+/)`. -/
def jsSplitSent (s : String) : List String :=
  (splitRunAux isSentSep s.toList [] false).map (fun cs => String.mk cs)

/-- Boolean prefix test on lists. -/
def isPrefixB [DecidableEq α] : List α → List α → Bool
  | [], _ => true
  | _ :: _, [] => false
  | a :: as, b :: bs => a = b && isPrefixB as bs

/-- Boolean substring containment on char lists (JS `String.prototype.includes`). -/
def containsSub (needle : List Char) : List Char → Bool
  | [] => isPrefixB needle []
  | c :: rest => isPrefixB needle (c :: rest) || containsSub needle rest

/-- JS `hay.includes(needle)` on strings. -/
def containsSubS (needle hay : String) : Bool := containsSub needle.toList hay.toList

/-- Word character class of the JS regex `\b` boundary ( `[A-Za-z0-9_]` ). -/
def isWordChar (c : Char) : Bool :=
  ('a' ≤ c ∧ c ≤ 'z') ∨ ('A' ≤ c ∧ c ≤ 'Z') ∨ ('0' ≤ c ∧ c ≤ '9') ∨ c = '_'

/-- Whether the boundary ahead of a word-character holds: start of string or
a non-word character. -/
def boundaryBefore : Option Char → Bool
  | none => true
  | some c => !isWordChar c

/-- Whether the boundary after the match holds: end of string or a non-word
character next. -/
def boundaryAfter : List Char → Bool
  | [] => true
  | d :: _ => !isWordChar d

/-- Count of matches of the JS global regex `\bw\b` in `hay` (for `w` made of
word characters, which forbids overlapping boundary-valid matches, so regex
scanning count equals the count of boundary-valid positions). `prev` is the
character just before the current position. -/
def countWB (w : List Char) (prev : Option Char) : List Char → ℕ
  | [] => 0
  | c :: rest =>
    (if isPrefixB w (c :: rest) && boundaryBefore prev && boundaryAfter ((c :: rest).drop w.length)
     then 1 else 0) + countWB w (some c) rest

/-- JS `lowerText.match(new RegExp('\\b' + word + '\\b', 'gi'))` match count. -/
def countWordMatches (word hay : String) : ℕ := countWB word.toList none hay.toList

/-- Whether the JS regex `\bw\b` matches anywhere (`pattern.test`). -/
def testWB (word hay : String) : Bool := countWordMatches word hay ≠ 0

/-- Whether the text contains any of the given literal alternatives. -/
def anyContains (hay : String) (alts : List String) : Bool :=
  alts.any (fun a => containsSubS a hay)

/-- The `[...new Set(list)]` conversion: keeps the first occurrence of each
element, in order of first appearance. -/
def dedupFirstAux : List String → List String → List String
  | _, [] => []
  | seen, x :: xs =>
    if x ∈ seen then dedupFirstAux seen xs
    else x :: dedupFirstAux (x :: seen) xs

def dedupFirst (l : List String) : List String := dedupFirstAux [] l

/-- Descending insertion used to model `frequencies.sort((a, b) => b - a)`. -/
def insertDesc (n : ℕ) : List ℕ → List ℕ
  | [] => [n]
  | m :: ms => if m ≤ n then n :: m :: ms else m :: insertDesc n ms

def sortDesc (l : List ℕ) : List ℕ := l.foldr insertDesc []

/-! ## TextAnalyzer embedding (src/js/textAnalyzer.js) -/

/-- Normalization `w.toLowerCase().replace(/[^a-z']/g, '')` applied
per character (analyzeLinguistics): lower-case letters and the apostrophe
survive, upper-case letters are lowered, everything else is dropped. -/
def normCharApos (c : Char) : Option Char :=
  if c.isLower then some c
  else if c.isUpper then some (Char.ofNat (c.toNat + 32))
  else if c = Char.ofNat 39 then some c
  else none

/-- Normalization `w.toLowerCase().replace(/[^a-z]/g, '')` per character
(fallbackAIDetection): as above but the apostrophe is dropped too. -/
def normCharPlain (c : Char) : Option Char :=
  if c.isLower then some c
  else if c.isUpper then some (Char.ofNat (c.toNat + 32))
  else none

def normLing (w : String) : String := String.mk (w.toList.filterMap normCharApos)

def normFB (w : String) : String := String.mk (w.toList.filterMap normCharPlain)

/-- JS `text.toLowerCase()` (ASCII; the pattern tables are all ASCII). -/
def lowerStr (s : String) : String := String.mk (s.toList.map Char.toLower)

/-- JS `s.trim()`: strip leading and trailing whitespace. -/
def jsTrim (s : String) : String :=
  String.mk (((s.toList.dropWhile isWsChar).reverse.dropWhile isWsChar).reverse)

/-- JS `text.substring(0, 2000)` (the token-budget truncation). -/
def jsTake2000 (s : String) : String := String.mk (s.toList.take 2000)

/-- Sentences: `text.split(/[.!?]+/).filter(s => s.trim())`. -/
def sentencesOf (text : String) : List String :=
  (jsSplitSent text).filter (fun s => jsTrim s ≠ "")

/-- Sentence word lengths: `sentences.map(s => s.trim().split(/\s+/).length)`. -/
def sentenceLengthsOf (text : String) : List ℕ :=
  (sentencesOf text).map (fun s => (jsSplitWs (jsTrim s)).length)

/-- Shared sentence-length variance computation (identical in
fallbackAIDetection and analyzeLinguistics): NaN when there is no sentence. -/
def sentenceVariance (text : String) : JsNum :=
  let lens := sentenceLengthsOf text
  let n : JsNum := JsNum.num (lens.length : ℚ)
  let avg := jdiv (JsNum.num ((lens.map (fun l => (l : ℚ))).sum)) n
  let sq := lens.foldl
    (fun acc l => jadd acc (jmul (jsub (JsNum.num (l : ℚ)) avg) (jsub (JsNum.num (l : ℚ)) avg)))
    (JsNum.num 0)
  jdiv sq n

def formalPhrases : List String :=
  ["it is important to note", "it is worth mentioning",
   "in conclusion", "furthermore", "moreover", "additionally",
   "it should be noted", "one might argue", "it is essential",
   "in today\x27s world", "plays a crucial role",
   "it is imperative", "significantly", "consequently"]

def sensationalWords : List String :=
  ["shocking", "unbelievable", "you won\x27t believe",
   "breaking", "urgent", "secret", "they don\x27t want you to know",
   "exposed", "bombshell", "mind-blowing", "conspiracy",
   "mainstream media", "cover up", "whistleblower"]

def absoluteWords : List String :=
  ["always", "never", "every", "all", "none",
   "completely", "totally", "absolutely", "definitely",
   "undoubtedly", "certainly", "obviously"]

/-- The five penalty conditions of fallbackAIDetection, in source order:
sentence-length variance < 15, more than 3 formal phrases, type-token
ratio < 0.4, more than 2 sensationalist markers, more than 5 absolute-word
occurrences. (The personal-voice count in the source is computed but never
used, so it is omitted.) The type-token ratio divides by the count of all
whitespace-split tokens, empty ones included; `split` always yields at
least one token, so this division is never by zero. -/
def fallbackConds (text : String) : Bool × Bool × Bool × Bool × Bool :=
  let lowerText := lowerStr text
  let words := jsSplitWs text
  let lowVariance := jltB (sentenceVariance text) 15
  let formalCount := (formalPhrases.filter (fun p => containsSubS p lowerText)).length
  let uniqCount := ((words.map normFB).dedup).length
  let lowTTR := decide ((uniqCount : ℚ) / (words.length : ℚ) < 2 / 5)
  let sensCount := (sensationalWords.filter (fun p => containsSubS p lowerText)).length
  let absCount := (absoluteWords.map (fun w => countWordMatches w lowerText)).sum
  (lowVariance, decide (3 < formalCount), lowTTR, decide (2 < sensCount), decide (5 < absCount))

structure FallbackResult where
  score : ℤ
  warnings : List String
deriving DecidableEq

/-- Heuristic fallback AI detection: baseline 75, fixed penalty per
triggered condition, warnings in source order, clamp to [5, 95]. -/
def fallbackAIDetection (text : String) : FallbackResult :=
  let c := fallbackConds text
  let s1 : ℤ := 75
  let s2 := if c.1 then s1 - 15 else s1
  let s3 := if c.2.1 then s2 - 10 else s2
  let s4 := if c.2.2.1 then s3 - 10 else s3
  let s5 := if c.2.2.2.1 then s4 - 15 else s4
  let s6 := if c.2.2.2.2 then s5 - 8 else s5
  { score := clampZ 5 95 s6
    warnings :=
      (if c.1 then ["Very uniform sentence lengths detected (common in AI text)"] else []) ++
      (if c.2.1 then ["Excessive use of formal transitional phrases"] else []) ++
      (if c.2.2.1 then ["Low vocabulary diversity detected"] else []) ++
      (if c.2.2.2.1 then ["Sensationalist language patterns detected (potential misinformation)"] else []) ++
      (if c.2.2.2.2 then ["Excessive use of absolute/superlative language"] else []) }

structure LingResult where
  perplexity : String
  burstiness : String
  diversityScore : JsNum
  variationScore : JsNum
  vocabularyScore : JsNum
  warnings : List String
deriving DecidableEq

/-- Clean words of analyzeLinguistics: normalized tokens with empties removed. -/
def cleanWordsOf (text : String) : List String :=
  ((jsSplitWs text).map normLing).filter (fun w => w ≠ "")

/-- Exact value of `Math.round(Math.min(Math.sqrt v * 8, 95))`:
`sqrt v * 8 = sqrt (64 v)` and `sqrt v * 8 ≤ 95 ↔ 64 v ≤ 9025`. -/
def variationScoreOfVar : JsNum → JsNum
  | JsNum.nan => JsNum.nan
  | JsNum.num v => JsNum.num (if 64 * v ≤ 9025 then (jsRoundSqrtQ (64 * v) : ℚ) else 95)

/-- Exact value of `Math.round(Math.sqrt v * 10) / 10` (the burstiness value):
`sqrt v * 10 = sqrt (100 v)`. -/
def burstinessValueOfVar : JsNum → JsNum
  | JsNum.nan => JsNum.nan
  | JsNum.num v => JsNum.num ((jsRoundSqrtQ (100 * v) : ℚ) / 10)

/-- Embedding of TextAnalyzer.analyzeLinguistics. -/
def analyzeLinguistics (text : String) : LingResult :=
  let cw := cleanWordsOf text
  let ttr := jdiv (JsNum.num (cw.dedup.length : ℚ)) (JsNum.num (cw.length : ℚ))
  let vocabularyScore := jroundJ (jminC (jmul ttr (JsNum.num 130)) 95)
  let v := sentenceVariance text
  let burstinessValue := burstinessValueOfVar v
  let variationScore := variationScoreOfVar v
  let frequencies := sortDesc (cw.dedup.map (fun w => cw.count w))
  let topFreqRatio := jdiv (JsNum.num ((frequencies.take 10).sum : ℚ)) (JsNum.num (cw.length : ℚ))
  let perplexityValue := jroundJ (jmul (jsub (JsNum.num 1) topFreqRatio) (JsNum.num 100))
  let diversityScore := jroundJ (jdiv (jadd vocabularyScore variationScore) (JsNum.num 2))
  { perplexity := if jgtB perplexityValue 60 then "High"
                  else if jgtB perplexityValue 30 then "Medium" else "Low"
    burstiness := if jgtB burstinessValue 6 then "High"
                  else if jgtB burstinessValue 3 then "Medium" else "Low"
    diversityScore := diversityScore
    variationScore := variationScore
    vocabularyScore := vocabularyScore
    warnings :=
      (if jltB variationScore 35 then ["Low sentence length variation (typical of AI-generated text)"] else []) ++
      (if jltB vocabularyScore 35 then ["Limited vocabulary diversity"] else []) ++
      (if jltB burstinessValue 3 then ["Unusually consistent writing rhythm"] else []) }

def temporalAlts : List String :=
  (["today\x27s", "the modern", "the current"].map (fun a =>
    ["world", "era", "age", "landscape"].map (fun b => "in " ++ a ++ " " ++ b))).flatten

def importantAlts : List String :=
  ((["it\x27s", "its"].map (fun a =>
    (["important", "crucial", "essential", "vital"].map (fun b =>
      ["note", "understand", "recognize", "remember"].map (fun c =>
        a ++ " " ++ b ++ " to " ++ c))).flatten)).flatten)

def conspiracyAlts : List String :=
  ((["they", "the government", "media"].map (fun a =>
    (["don\x27t", "dont", "doesn\x27t", "doesnt", "won\x27t", "wont"].map (fun b =>
      (["want", "let"].map (fun c =>
        ["know", "see"].map (fun d =>
          a ++ " " ++ b ++ " " ++ c ++ " you " ++ d))).flatten)).flatten)).flatten)

/-- Test of `/\blandscape\b.*\b(ever-changing|evolving|dynamic)\b/`: a
boundary match of "landscape" followed, with no newline in between (`.`),
by a boundary match of one of the three adjectives. `prev` carries the
character preceding the scan position; the character before the trailing
segment is the final `e` of "landscape" (a word character). -/
def landscapeTestAux (prev : Option Char) : List Char → Bool
  | [] => false
  | c :: rest =>
    (if isPrefixB "landscape".toList (c :: rest) && boundaryBefore prev &&
        boundaryAfter ((c :: rest).drop 9) then
       let seg := ((c :: rest).drop 9).takeWhile (fun d => d ≠ '\n')
       ["ever-changing", "evolving", "dynamic"].any
         (fun w2 => countWB w2.toList (some 'e') seg ≠ 0)
     else false)
    || landscapeTestAux (some c) rest

def landscapeTest (hay : String) : Bool := landscapeTestAux none hay.toList

/-- Test of the two-quote patterns `/[""].*?[""]|".*?"/`: two typographic
quotes, or two straight quotes, on one line. State bits record whether an
opening quote of each class was seen on the current line. -/
def hasQuotesAux : List Char → Bool → Bool → Bool
  | [], _, _ => false
  | c :: rest, sawSmart, sawStraight =>
    if c = '\n' then hasQuotesAux rest false false
    else if c = Char.ofNat 0x201C ∨ c = Char.ofNat 0x201D then
      sawSmart || hasQuotesAux rest true sawStraight
    else if c = Char.ofNat 34 then
      sawStraight || hasQuotesAux rest sawSmart true
    else hasQuotesAux rest sawSmart sawStraight

structure PatternResult where
  naturalScore : ℤ
  credibilityScore : ℤ
  warnings : List String
deriving DecidableEq

/-- Embedding of TextAnalyzer.analyzePatterns. The regular expressions are
literal alternations expanded into substring alternatives; the two
word-boundary patterns use the `\b` matcher. All patterns carry the `i`
flag, so they are tested against the lower-cased text. -/
def analyzePatterns (text : String) : PatternResult :=
  let lowerText := lowerStr text
  let ai1 := containsSubS "as an ai" lowerText
  let ai2 := anyContains lowerText
    ["i cannot", "i can\x27t provide", "i can\x27t generate", "i can\x27t create"]
  let ai3 := testWB "delve" lowerText
  let ai4 := landscapeTest lowerText
  let ai5 := anyContains lowerText temporalAlts
  let ai6 := anyContains lowerText importantAlts
  let naturalRaw : ℤ := 70 + (if ai1 then -30 else 0) + (if ai2 then -20 else 0) +
    (if ai3 then -5 else 0) + (if ai4 then -5 else 0) + (if ai5 then -8 else 0) +
    (if ai6 then -8 else 0)
  let aiWarnings :=
    (if ai1 then ["Contains AI self-reference"] else []) ++
    (if ai2 then ["Contains AI refusal patterns"] else []) ++
    (if ai3 then ["Uses common AI vocabulary (\"delve\")"] else []) ++
    (if ai5 then ["Uses generic temporal phrases"] else [])
  let mi1 := anyContains lowerText ["share this", "share before", "share with everyone"]
  let mi2 := anyContains lowerText conspiracyAlts
  let mi3 := anyContains lowerText ["100%", "guaranteed", "proven", "scientifically proven"]
  let mi4 := anyContains lowerText ["wake up", "sheeple", "open your eyes"]
  let mi5 := anyContains lowerText ["mainstream media", "msm", "big pharma", "big tech"]
  let credAfterMisinfo : ℤ := 70 + (if mi1 then -15 else 0) + (if mi2 then -20 else 0) +
    (if mi3 then -10 else 0) + (if mi4 then -15 else 0) + (if mi5 then -10 else 0)
  let miWarnings :=
    (if mi1 then ["Contains viral sharing prompts"] else []) ++
    (if mi2 then ["Contains conspiracy language"] else []) ++
    (if mi3 then ["Makes absolute claims without sourcing"] else []) ++
    (if mi4 then ["Uses manipulation language"] else []) ++
    (if mi5 then ["Uses anti-establishment rhetoric"] else [])
  let hasLinks := anyContains lowerText ["http://", "https://", "www."]
  let hasSourceMention := anyContains lowerText
    ["according to", "study published", "study found", "study shows",
     "researcher at", "researcher from", "researchers at", "researchers from",
     "journal of", "university of"]
  let hasQuotes := hasQuotesAux text.toList false false
  let credAfterBonus := credAfterMisinfo + (if hasSourceMention || hasLinks then 10 else 0) +
    (if hasQuotes then 5 else 0)
  let noSources := !hasSourceMention && !hasLinks && decide (500 < text.length)
  let credFinal := if noSources then credAfterBonus - 5 else credAfterBonus
  { naturalScore := clampZ 5 95 naturalRaw
    credibilityScore := clampZ 5 95 credFinal
    warnings := aiWarnings ++ miWarnings ++
      (if noSources then ["No sources or references cited for claims made"] else []) }

structure TextReport where
  overallScore : JsNum
  wordCount : ℕ
  sentenceCount : ℕ
  perplexity : String
  burstiness : String
  breakdown : List (String × JsNum)
  warnings : List String
deriving DecidableEq

/-- Embedding of TextAnalyzer.analyze before warning deduplication.
`remote` is the settled value of detectAIContent (None when it returned
null, i.e. the remote signal failed); `lingOk`/`patOk` are the fulfillment
statuses of the other two settled promises (their bodies cannot throw, so
both are true at runtime, but the source branches on them). -/
def textAnalyzeRaw (text : String) (remote : Option ℤ) (lingOk patOk : Bool) : TextReport :=
  let wordCount := ((jsSplitWs text).filter (fun w => 0 < w.length)).length
  let sentenceCount := ((jsSplitSent text).filter (fun s => jsTrim s ≠ "")).length
  let aiPart : List (String × JsNum) × List String :=
    match remote with
    | some h =>
        ([("AI Detection Model (RoBERTa)", JsNum.num (h : ℚ))],
         if h < 40 then
           ["AI detection model indicates high probability of machine-generated content"]
         else [])
    | none =>
        let fb := fallbackAIDetection text
        ([("AI Detection (Heuristic Fallback)", JsNum.num (fb.score : ℚ))], fb.warnings)
  let ling := analyzeLinguistics text
  let lingPart : List (String × JsNum) × List String :=
    if lingOk then
      ([("Linguistic Diversity", ling.diversityScore),
        ("Sentence Variation", ling.variationScore),
        ("Vocabulary Richness", ling.vocabularyScore)], ling.warnings)
    else ([], [])
  let pat := analyzePatterns text
  let patPart : List (String × JsNum) × List String :=
    if patOk then
      ([("Writing Pattern Naturalness", JsNum.num (pat.naturalScore : ℚ)),
        ("Content Credibility Signals", JsNum.num (pat.credibilityScore : ℚ))], pat.warnings)
    else ([], [])
  let breakdown := aiPart.1 ++ lingPart.1 ++ patPart.1
  let scores := breakdown.map (fun b => b.2)
  { overallScore := jroundJ (jdiv (scores.foldl jadd (JsNum.num 0)) (JsNum.num (scores.length : ℚ)))
    wordCount := wordCount
    sentenceCount := sentenceCount
    perplexity := if lingOk then ling.perplexity else "N/A"
    burstiness := if lingOk then ling.burstiness else "N/A"
    breakdown := breakdown
    warnings := aiPart.2 ++ lingPart.2 ++ patPart.2 }

/-- Embedding of TextAnalyzer.analyze: the raw report with warnings
deduplicated by `[...new Set(warnings)]`. -/
def textAnalyze (text : String) (remote : Option ℤ) (lingOk patOk : Bool) : TextReport :=
  let r := textAnalyzeRaw text remote lingOk patOk
  { r with warnings := dedupFirst r.warnings }

/-! ## Remote inference client embedding -/

/-- A parsed classification row `{label, score}` of a model response body. -/
structure LabelRow where
  label : String
  score : ℚ
deriving DecidableEq

/-- JSON body of a Hugging Face inference response, in the shapes the
source distinguishes: an object (with an optional `error` field), a flat
`[{label, score}, ...]` array, a nested `[[{label, score}, ...], ...]`
array, or unparseable JSON (`response.json()` throws). -/
inductive HFBody where
  | obj : Option String → HFBody
  | arr : List LabelRow → HFBody
  | arrNested : List (List LabelRow) → HFBody
  | invalid : HFBody
deriving DecidableEq

structure HFResponse where
  ok : Bool
  body : HFBody
deriving DecidableEq

/-- Observable actions of a remote call: an HTTP request to a model with a
payload and credential (text requests carry the truncated text, binary
requests an opaque payload identifier), and a setTimeout delay. -/
inductive RemoteEvent where
  | reqText : String → String → String → RemoteEvent
  | reqBin : String → ℕ → String → RemoteEvent
  | delay : ℕ → RemoteEvent
deriving DecidableEq

/-- Result of a remote detection call: a parsed realness/human score, the
null result the source returns from its catch blocks (the call failed),
or still pending (the supplied response list ran out while the call was
waiting on the network or still recursing). -/
inductive RemoteOutcome where
  | score : ℤ → RemoteOutcome
  | nullResult : RemoteOutcome
  | pending : RemoteOutcome
deriving DecidableEq

def primaryTextModel : String := "openai-community/roberta-base-openai-detector"
def alternateTextModel : String := "Hello-SimpleAI/chatgpt-detector-roberta"
def aiImageModel : String := "umm-maybe/AI-image-detector"
def deepfakeModel : String := "dima806/deepfake_vs_real_faces_detection"

/-- Shared shape of the four label-parse loops: start at 50 and let every
row whose label matches overwrite the score with `Math.round(score * 100)`
(the last matching row wins). -/
def parseRows (matcher : LabelRow → Bool) (rows : List LabelRow) : ℤ :=
  rows.foldl (fun acc r => if matcher r then jsRound (r.score * 100) else acc) 50

/-- Label vocabulary of detectAIContent: lower-cased label equals "real" or
"label_1". -/
def matchHumanLabel (r : LabelRow) : Bool :=
  lowerStr r.label = "real" ∨ lowerStr r.label = "label_1"

/-- Label vocabulary of tryAlternateModel: label contains "human" or equals
"label_0". -/
def matchAltLabel (r : LabelRow) : Bool :=
  containsSubS "human" (lowerStr r.label) ∨ lowerStr r.label = "label_0"

/-- Label vocabulary of detectAIGenerated: label contains "real", "human"
or "authentic". -/
def matchImageAILabel (r : LabelRow) : Bool :=
  containsSubS "real" (lowerStr r.label) ∨ containsSubS "human" (lowerStr r.label) ∨
    containsSubS "authentic" (lowerStr r.label)

/-- Label vocabulary of detectDeepfake: label contains "real" (the source's
second disjunct `label === 'real'` is subsumed). -/
def matchDeepfakeLabel (r : LabelRow) : Bool :=
  containsSubS "real" (lowerStr r.label)

/-- Label parse of detectAIContent. -/
def parseHumanFlat (rows : List LabelRow) : ℤ := parseRows matchHumanLabel rows

/-- Label parse of tryAlternateModel. -/
def parseAltFlat (rows : List LabelRow) : ℤ := parseRows matchAltLabel rows

/-- Label parse of detectAIGenerated. -/
def parseImageAIFlat (rows : List LabelRow) : ℤ := parseRows matchImageAILabel rows

/-- Label parse of detectDeepfake. -/
def parseDeepfakeFlat (rows : List LabelRow) : ℤ := parseRows matchDeepfakeLabel rows

/-- Embedding of TextAnalyzer.tryAlternateModel, consuming the next
response from the supplied list. On a non-success response it returns
null; on success it parses `data[0]` when that is an array, the whole
array when flat, and defaults to 50 when `data` is not an array or
`data[0]` is falsy. -/
def tryAlternateModel (text apiKey : String) (rs : List HFResponse) :
    List RemoteEvent × RemoteOutcome :=
  let ev := RemoteEvent.reqText alternateTextModel (jsTake2000 text) apiKey
  match rs with
  | [] => ([ev], RemoteOutcome.pending)
  | r :: _ =>
    if r.ok then
      match r.body with
      | HFBody.invalid => ([ev], RemoteOutcome.nullResult)
      | HFBody.obj _ => ([ev], RemoteOutcome.score 50)
      | HFBody.arr [] => ([ev], RemoteOutcome.score 50)
      | HFBody.arr rows => ([ev], RemoteOutcome.score (parseAltFlat rows))
      | HFBody.arrNested rows =>
          ([ev], RemoteOutcome.score (parseAltFlat (rows.headD [])))
    else ([ev], RemoteOutcome.nullResult)

/-- Embedding of TextAnalyzer.detectAIContent over an explicit response
list. A non-success response falls through to tryAlternateModel on the
remaining responses. A success response whose JSON object carries an
`error` string containing "loading" causes a 20 000 ms delay followed by a
recursive identical request; any other error string is thrown and caught
(null). Successful arrays are parsed with `parseHumanFlat` (nested arrays
through their first element, which is exactly what the source's two
`Array.isArray` branches compute); a non-array body yields the default 50. -/
def detectAIContent (text apiKey : String) : List HFResponse → List RemoteEvent × RemoteOutcome
  | [] => ([RemoteEvent.reqText primaryTextModel (jsTake2000 text) apiKey], RemoteOutcome.pending)
  | r :: rest =>
    let ev := RemoteEvent.reqText primaryTextModel (jsTake2000 text) apiKey
    if r.ok then
      match r.body with
      | HFBody.invalid => ([ev], RemoteOutcome.nullResult)
      | HFBody.obj (some err) =>
          if containsSubS "loading" err then
            let t := detectAIContent text apiKey rest
            (ev :: RemoteEvent.delay 20000 :: t.1, t.2)
          else ([ev], RemoteOutcome.nullResult)
      | HFBody.obj none => ([ev], RemoteOutcome.score 50)
      | HFBody.arr rows => ([ev], RemoteOutcome.score (parseHumanFlat rows))
      | HFBody.arrNested rows =>
          ([ev], RemoteOutcome.score (parseHumanFlat (rows.headD [])))
    else
      let t := tryAlternateModel text apiKey rest
      (ev :: t.1, t.2)

/-- Embedding of ImageAnalyzer.detectAIGenerated. On a non-success
response the error body is parsed (`{}` when unparseable): an error string
containing "loading" triggers a 20 000 ms delay and an identical recursive
request; otherwise the call throws and the catch returns null. On success
a flat array is parsed with `parseImageAIFlat`; any other body shape
leaves the default 50 (nested rows have no `label` field, so the `?.`
chain yields no match). -/
def detectAIGenerated (payload : ℕ) (apiKey : String) :
    List HFResponse → List RemoteEvent × RemoteOutcome
  | [] => ([RemoteEvent.reqBin aiImageModel payload apiKey], RemoteOutcome.pending)
  | r :: rest =>
    let ev := RemoteEvent.reqBin aiImageModel payload apiKey
    if r.ok then
      match r.body with
      | HFBody.invalid => ([ev], RemoteOutcome.nullResult)
      | HFBody.obj _ => ([ev], RemoteOutcome.score 50)
      | HFBody.arr rows => ([ev], RemoteOutcome.score (parseImageAIFlat rows))
      | HFBody.arrNested _ => ([ev], RemoteOutcome.score 50)
    else
      match r.body with
      | HFBody.obj (some err) =>
          if containsSubS "loading" err then
            let t := detectAIGenerated payload apiKey rest
            (ev :: RemoteEvent.delay 20000 :: t.1, t.2)
          else ([ev], RemoteOutcome.nullResult)
      | _ => ([ev], RemoteOutcome.nullResult)

/-- Embedding of ImageAnalyzer.detectDeepfake: identical control flow to
detectAIGenerated with the deepfake model and its label vocabulary. -/
def detectDeepfake (payload : ℕ) (apiKey : String) :
    List HFResponse → List RemoteEvent × RemoteOutcome
  | [] => ([RemoteEvent.reqBin deepfakeModel payload apiKey], RemoteOutcome.pending)
  | r :: rest =>
    let ev := RemoteEvent.reqBin deepfakeModel payload apiKey
    if r.ok then
      match r.body with
      | HFBody.invalid => ([ev], RemoteOutcome.nullResult)
      | HFBody.obj _ => ([ev], RemoteOutcome.score 50)
      | HFBody.arr rows => ([ev], RemoteOutcome.score (parseDeepfakeFlat rows))
      | HFBody.arrNested _ => ([ev], RemoteOutcome.score 50)
    else
      match r.body with
      | HFBody.obj (some err) =>
          if containsSubS "loading" err then
            let t := detectDeepfake payload apiKey rest
            (ev :: RemoteEvent.delay 20000 :: t.1, t.2)
          else ([ev], RemoteOutcome.nullResult)
      | _ => ([ev], RemoteOutcome.nullResult)

/-- The settled value detectAIContent / detectAIGenerated / detectDeepfake
hands to analyze: a score when the call returned one, None when it
returned null. (`pending` never settles, so analyze never observes it.) -/
def outcomeOpt : RemoteOutcome → Option ℤ
  | RemoteOutcome.score n => some n
  | RemoteOutcome.nullResult => none
  | RemoteOutcome.pending => none

/-! ## ImageAnalyzer embedding (src/unnamed/part_000, ImageAnalyzer module) -/

structure MetaResult where
  integrityScore : ℤ
  metadataScore : ℤ
  warnings : List String
deriving DecidableEq

def aiDimensions : List ℕ := [512, 768, 1024, 256, 2048]

/-- Embedding of ImageAnalyzer.analyzeMetadata. `dims` is None when
loadImage failed (the catch skips the dimension checks); both scores are
clamped to [10, 95]. -/
def analyzeMetadata (fileSize : ℕ) (dims : Option (ℕ × ℕ)) : MetaResult :=
  let i1 : ℤ := 70
  let smallFile := 0 < fileSize ∧ fileSize < 10000
  let largeFile := 0 < fileSize ∧ 5 * 1024 * 1024 < fileSize
  let i2 := if smallFile then i1 - 10 else i1
  let i3 := if largeFile then i2 + 5 else i2
  let sizeWarnings :=
    if smallFile then ["Very small file size may indicate heavy compression or modification"] else []
  let m1 : ℤ := 65
  match dims with
  | none =>
      { integrityScore := clampZ 10 95 i3
        metadataScore := clampZ 10 95 m1
        warnings := sizeWarnings }
  | some (w, h) =>
      let dimMatch := w ∈ aiDimensions ∧ h ∈ aiDimensions
      let m2 := if dimMatch then m1 - 15 else m1
      let squareMatch := w = h ∧ w ∈ aiDimensions
      let m3 := if squareMatch then m2 - 10 else m2
      { integrityScore := clampZ 10 95 i3
        metadataScore := clampZ 10 95 m3
        warnings := sizeWarnings ++
          (if dimMatch then
            ["Image dimensions (" ++ toString w ++ "×" ++ toString h ++
             ") match common AI generation sizes"] else []) ++
          (if squareMatch then
            ["Perfect square dimensions common in AI-generated images"] else []) }

/-- Decoded RGBA pixel buffer of the downscaled canvas, as
analyzePixelPatterns reads it (`getImageData(...).data` flattened). -/
structure PixelData where
  width : ℕ
  height : ℕ
  data : List ℕ
deriving DecidableEq

/-- The RGB triples of the flattened RGBA buffer (the loop `i += 4`). -/
def rgbTriples : List ℕ → List (ℕ × ℕ × ℕ)
  | r :: g :: b :: _ :: rest => (r, g, b) :: rgbTriples rest
  | _ => []

/-- Pixel brightness `Math.round((r + g + b) / 3)`. -/
def brightnessOf (t : ℕ × ℕ × ℕ) : ℕ := (2 * (t.1 + t.2.1 + t.2.2) + 3) / 6

/-- Bucket `i` of the 256-bucket brightness histogram. -/
def histCount (p : PixelData) (i : ℕ) : ℕ :=
  ((rgbTriples p.data).map brightnessOf).count i

/-- Sum of absolute first differences of adjacent histogram buckets
(`for i = 1; i < 255`). -/
def smoothnessSum (p : PixelData) : ℕ :=
  ((List.range 254).map
    (fun k => Int.natAbs ((histCount p (k + 1) : ℤ) - (histCount p k : ℤ)))).sum

/-- Red channel at pixel (x, y): `pixels[(y * width + x) * 4]`. -/
def redAt (p : PixelData) (x y : ℕ) : ℕ := p.data.getD ((y * p.width + x) * 4) 0

/-- Whether the interior pixel (x, y) counts as an edge:
`sqrt (gx² + gy²) > 50 ↔ gx² + gy² > 2500`. -/
def edgeAt (p : PixelData) (x y : ℕ) : Bool :=
  let gx := Int.natAbs ((redAt p (x + 1) y : ℤ) - (redAt p (x - 1) y : ℤ))
  let gy := Int.natAbs ((redAt p x (y + 1) : ℤ) - (redAt p x (y - 1) : ℤ))
  2500 < gx * gx + gy * gy

/-- Count of edge pixels over the interior loops
`for y = 1; y < height - 1` and `for x = 1; x < width - 1`. -/
def edgeCountOf (p : PixelData) : ℕ :=
  ((List.range (p.height - 2)).map
    (fun y1 => ((List.range (p.width - 2)).filter (fun x1 => edgeAt p (x1 + 1) (y1 + 1))).length)).sum

/-- Whether sample `i` of the repetition scan finds an equal RGB triple one
stride further on. -/
def repeatAt (p : PixelData) (step i : ℕ) : Bool :=
  let idx1 := i * 4 * step
  let idx2 := (i + step) * 4
  idx2 + 2 < p.data.length ∧
    p.data.getD idx1 0 = p.data.getD idx2 0 ∧
    p.data.getD (idx1 + 1) 0 = p.data.getD (idx2 + 1) 0 ∧
    p.data.getD (idx1 + 2) 0 = p.data.getD (idx2 + 2) 0

/-- Embedding of ImageAnalyzer.analyzePixelPatterns. `pix` is None when
image loading or canvas decoding throws, in which case the catch sets the
score to the fixed fallback 60 with no warnings. The three density
comparisons are cross-multiplied (`a / t < c ↔ a * denom < t * num` for
t > 0), which also agrees with the source when `t = 0` (the JS NaN
comparison is false, as is the cross-multiplied `0 < 0`). -/
def analyzePixelPatterns (pix : Option PixelData) : ℤ × List String :=
  match pix with
  | none => (clampZ 10 95 60, [])
  | some p =>
    let totalPixels := p.width * p.height
    let smoothCond := smoothnessSum p * 10 < totalPixels * 3
    let edgeCond := edgeCountOf p * 20 < totalPixels
    let sampleSize := min 1000 totalPixels
    let step := p.data.length / 4 / sampleSize
    let repeatCount := ((List.range (sampleSize - step)).filter (fun i => repeatAt p step i)).length
    let repeatCond := sampleSize * 3 < repeatCount * 10
    let score : ℤ := 70 - (if smoothCond then 10 else 0) - (if edgeCond then 8 else 0) -
      (if repeatCond then 10 else 0)
    (clampZ 10 95 score,
      (if smoothCond then
        ["Unusually smooth color distribution (potential AI generation indicator)"] else []) ++
      (if edgeCond then ["Low edge density detected (possible over-smoothing)"] else []) ++
      (if repeatCond then ["Repeating pixel patterns detected"] else []))

/-- Embedding of ImageAnalyzer.fallbackImageAnalysis (its warnings are
never pushed by analyze). -/
def fallbackImageAnalysis : ℤ × List String :=
  (60, ["API unavailable - using basic heuristic analysis"])

structure ImageReport where
  authenticityScore : ℤ
  format : String
  aiGenerated : Bool
  deepfakeScore : ℤ
  manipulationScore : ℤ
  breakdown : List (String × ℤ)
  warnings : List String
deriving DecidableEq

/-- Embedding of ImageAnalyzer.analyze before warning deduplication.
`aiRemote` / `dfRemote` are the settled values of detectAIGenerated and
detectDeepfake (None = the call returned null or its promise rejected);
`metaOk` is the fulfillment status of analyzeMetadata (its body cannot
throw, so it is true at runtime, but the source branches on it). -/
def imageAnalyzeRaw (format : String) (aiRemote dfRemote : Option ℤ) (metaOk : Bool)
    (fileSize : ℕ) (dims : Option (ℕ × ℕ)) (pix : Option PixelData) : ImageReport :=
  let aiPart : (List (String × ℤ) × List String) × Bool :=
    match aiRemote with
    | some s =>
        (([("AI Image Detection", s)],
          if s < 40 then ["Image shows strong indicators of AI generation"] else []),
         decide (s < 50))
    | none => (([("AI Detection (Heuristic)", fallbackImageAnalysis.1)], []), false)
  let dfPart : (List (String × ℤ) × List String) × ℤ :=
    match dfRemote with
    | some s =>
        (([("Deepfake Detection", s)],
          if s < 40 then ["Deepfake indicators detected in the image"] else []),
         100 - s)
    | none => (([("Deepfake Detection", 70)], []), 0)
  let metaPart : (List (String × ℤ) × List String) × ℤ :=
    if metaOk then
      let meta := analyzeMetadata fileSize dims
      (([("File Integrity", meta.integrityScore),
         ("Metadata Consistency", meta.metadataScore)], meta.warnings),
       100 - meta.integrityScore)
    else (([("File Integrity", 65), ("Metadata Consistency", 60)], []), 0)
  let px := analyzePixelPatterns pix
  let breakdown := aiPart.1.1 ++ dfPart.1.1 ++ metaPart.1.1 ++ [("Pixel Pattern Analysis", px.1)]
  let scores := breakdown.map (fun b => b.2)
  { authenticityScore := jsRound (((scores.foldl (· + ·) 0 : ℤ) : ℚ) / (scores.length : ℚ))
    format := format
    aiGenerated := aiPart.2
    deepfakeScore := dfPart.2
    manipulationScore := metaPart.2
    breakdown := breakdown
    warnings := aiPart.1.2 ++ dfPart.1.2 ++ metaPart.1.2 ++ px.2 }

/-- Embedding of ImageAnalyzer.analyze: the raw report with warnings
deduplicated by `[...new Set(warnings)]`. -/
def imageAnalyze (format : String) (aiRemote dfRemote : Option ℤ) (metaOk : Bool)
    (fileSize : ℕ) (dims : Option (ℕ × ℕ)) (pix : Option PixelData) : ImageReport :=
  let r := imageAnalyzeRaw format aiRemote dfRemote metaOk fileSize dims pix
  { r with warnings := dedupFirst r.warnings }

/-! ## Verdict banding (renderTextResults / renderImageResults in app.js) -/

/-- Verdict of renderTextResults:
`overallScore > 70 ? 'authentic' : overallScore > 40 ? 'suspicious' : 'fake'`
(the overall score is a JS number; NaN compares false). -/
def renderTextVerdict (overallScore : JsNum) : String :=
  if jgtB overallScore 70 then "authentic"
  else if jgtB overallScore 40 then "suspicious" else "fake"

/-- Verdict of renderImageResults, same expression over authenticityScore. -/
def renderImageVerdict (authenticityScore : ℤ) : String :=
  if 70 < authenticityScore then "authentic"
  else if 40 < authenticityScore then "suspicious" else "fake"

/-! ## Statement-level definitions -/

/-- Sum of a list of JS numbers (NaN absorbing). -/
def jsum (l : List JsNum) : JsNum := l.foldr jadd (JsNum.num 0)

/-- The JS number is finite and lies in the closed interval [lo, hi]. -/
def ScoreIn (lo hi : ℚ) (x : JsNum) : Prop :=
  ∃ q, x = JsNum.num q ∧ lo ≤ q ∧ q ≤ hi

/-- Pointwise implication between two fallback condition tuples: every
condition triggered by the second is triggered by the first. -/
@[reducible] def condsImp (c d : Bool × Bool × Bool × Bool × Bool) : Prop :=
  (d.1 = true → c.1 = true) ∧ (d.2.1 = true → c.2.1 = true) ∧
  (d.2.2.1 = true → c.2.2.1 = true) ∧ (d.2.2.2.1 = true → c.2.2.2.1 = true) ∧
  (d.2.2.2.2 = true → c.2.2.2.2 = true)

/-- The fallback score as a function of the triggered conditions: baseline
75 minus the fixed penalties, clamped to [5, 95]. -/
def fallbackScoreOfConds (c : Bool × Bool × Bool × Bool × Bool) : ℤ :=
  clampZ 5 95 (75 - (if c.1 then 15 else 0) - (if c.2.1 then 10 else 0) -
    (if c.2.2.1 then 10 else 0) - (if c.2.2.2.1 then 15 else 0) -
    (if c.2.2.2.2 then 8 else 0))

/-! ## Helper lemmas -/

theorem jadd_num_zero_right (a : JsNum) : jadd a (JsNum.num 0) = a := by
  cases a <;> simp [jadd]

theorem jadd_assoc (a b c : JsNum) : jadd (jadd a b) c = jadd a (jadd b c) := by
  cases a <;> cases b <;> cases c <;> simp [jadd, add_assoc]

theorem foldl_jadd (l : List JsNum) : ∀ a, l.foldl jadd a = jadd a (jsum l) := by
  induction l with
  | nil => intro a; simp [jsum, jadd_num_zero_right]
  | cons x xs ih =>
    intro a
    simp only [List.foldl_cons, ih, jsum, List.foldr_cons]
    rw [jadd_assoc]

theorem foldl_add_int (l : List ℤ) : ∀ a, l.foldl (· + ·) a = a + l.sum := by
  induction l with
  | nil => intro a; simp
  | cons x xs ih => intro a; simp [ih, List.sum_cons]; ring

theorem dedupFirstAux_sublist (l : List String) : ∀ seen, (dedupFirstAux seen l).Sublist l := by
  induction l with
  | nil => intro seen; simp [dedupFirstAux]
  | cons x xs ih =>
    intro seen
    by_cases h : x ∈ seen
    · simp only [dedupFirstAux, if_pos h]
      exact (ih seen).trans (List.sublist_cons_self x xs)
    · simp only [dedupFirstAux, if_neg h]
      exact (ih (x :: seen)).cons₂ x

theorem dedupFirstAux_mem (l : List String) :
    ∀ seen x, x ∈ dedupFirstAux seen l ↔ x ∈ l ∧ x ∉ seen := by
  induction l with
  | nil => intro seen x; simp [dedupFirstAux]
  | cons y ys ih =>
    intro seen x
    by_cases h : y ∈ seen
    · simp only [dedupFirstAux, if_pos h, ih, List.mem_cons]
      constructor
      · rintro ⟨hx, hn⟩; exact ⟨Or.inr hx, hn⟩
      · rintro ⟨hx | hx, hn⟩
        · exact absurd (hx ▸ h) hn
        · exact ⟨hx, hn⟩
    · simp only [dedupFirstAux, if_neg h, List.mem_cons, ih]
      by_cases hxy : x = y
      · subst hxy
        simp [h]
      · simp [hxy]

theorem dedupFirstAux_nodup (l : List String) : ∀ seen, (dedupFirstAux seen l).Nodup := by
  induction l with
  | nil => intro seen; simp [dedupFirstAux]
  | cons x xs ih =>
    intro seen
    by_cases h : x ∈ seen
    · simpa [dedupFirstAux, if_pos h] using ih seen
    · simp only [dedupFirstAux, if_neg h, List.nodup_cons]
      refine ⟨fun hx => ?_, ih (x :: seen)⟩
      exact ((dedupFirstAux_mem xs (x :: seen) x).mp hx).2 (List.mem_cons_self x seen)

theorem dedupFirst_nodup (l : List String) : (dedupFirst l).Nodup :=
  dedupFirstAux_nodup l []

theorem dedupFirst_sublist (l : List String) : (dedupFirst l).Sublist l :=
  dedupFirstAux_sublist l []

theorem dedupFirst_mem (l : List String) (x : String) : x ∈ dedupFirst l ↔ x ∈ l := by
  simp [dedupFirst, dedupFirstAux_mem]

theorem jsRound_nonneg {q : ℚ} (h : 0 ≤ q) : 0 ≤ jsRound q := by
  have h1 : (0 : ℚ) ≤ q + 1 / 2 := by linarith
  simpa [jsRound] using Int.floor_nonneg.mpr h1

theorem jsRound_le {q : ℚ} {c : ℤ} (h : q ≤ (c : ℚ)) : jsRound q ≤ c := by
  have h1 : q + 1 / 2 < ((c + 1 : ℤ) : ℚ) := by push_cast; linarith
  have h2 : jsRound q < c + 1 := Int.floor_lt.mpr h1
  omega

theorem clampZ_bounds {lo hi : ℤ} (x : ℤ) (h : lo ≤ hi) :
    lo ≤ clampZ lo hi x ∧ clampZ lo hi x ≤ hi :=
  ⟨le_max_left _ _, max_le h (min_le_left _ _)⟩

theorem parseRows_bound (m : LabelRow → Bool) (rows : List LabelRow)
    (h : ∀ r ∈ rows, 0 ≤ r.score ∧ r.score ≤ 1) :
    0 ≤ parseRows m rows ∧ parseRows m rows ≤ 100 := by
  have key : ∀ (l : List LabelRow) (acc : ℤ), (∀ r ∈ l, 0 ≤ r.score ∧ r.score ≤ 1) →
      0 ≤ acc → acc ≤ 100 →
      0 ≤ l.foldl (fun acc r => if m r then jsRound (r.score * 100) else acc) acc ∧
      l.foldl (fun acc r => if m r then jsRound (r.score * 100) else acc) acc ≤ 100 := by
    intro l
    induction l with
    | nil => intro acc _ h1 h2; exact ⟨h1, h2⟩
    | cons r rs ih =>
      intro acc hl h1 h2
      simp only [List.foldl_cons]
      by_cases hm : m r
      · simp only [hm, if_pos]
        have hr := hl r (List.mem_cons_self r rs)
        have hlo : (0 : ℤ) ≤ jsRound (r.score * 100) := jsRound_nonneg (by nlinarith [hr.1])
        have hhi : jsRound (r.score * 100) ≤ 100 := jsRound_le (by push_cast; nlinarith [hr.2])
        exact ih _ (fun x hx => hl x (List.mem_cons_of_mem r hx)) hlo hhi
      · simp only [hm, if_neg, Bool.false_eq_true, not_false_eq_true]
        exact ih _ (fun x hx => hl x (List.mem_cons_of_mem r hx)) h1 h2
  exact key rows 50 h (by norm_num) (by norm_num)

theorem parseRows_no_match (m : LabelRow → Bool) (rows : List LabelRow)
    (h : ∀ r ∈ rows, m r = false) : parseRows m rows = 50 := by
  have key : ∀ (l : List LabelRow) (acc : ℤ), (∀ r ∈ l, m r = false) →
      l.foldl (fun acc r => if m r then jsRound (r.score * 100) else acc) acc = acc := by
    intro l
    induction l with
    | nil => intro acc _; rfl
    | cons r rs ih =>
      intro acc hl
      simp only [List.foldl_cons, hl r (List.mem_cons_self r rs)]
      simpa using ih acc (fun x hx => hl x (List.mem_cons_of_mem r hx))
  exact key rows 50 h

theorem jadd_num_zero_left (x : JsNum) : jadd (JsNum.num 0) x = x := by
  cases x <;> simp [jadd]

/-- Claim C4: for every report from either pipeline, the verdict
classification is a total three-way banding of the overall score shared by
both pipelines: overall score strictly greater than 70 yields "authentic",
scores 41 through 70 yield "suspicious", and scores at most 40 yield the
fake/AI verdict ("fake"). -/
theorem verdict_banding :
    ∀ n : ℤ, (renderImageVerdict n = "authentic" ↔ 70 < n) ∧
      (renderImageVerdict n = "suspicious" ↔ 40 < n ∧ n ≤ 70) ∧
      (renderImageVerdict n = "fake" ↔ n ≤ 40) ∧
      renderTextVerdict (JsNum.num (n : ℚ)) = renderImageVerdict n := by
  intro n
  have hagree : renderTextVerdict (JsNum.num (n : ℚ)) = renderImageVerdict n := by
    simp only [renderTextVerdict, renderImageVerdict, jgtB, decide_eq_true_eq]
    by_cases h1 : (70 : ℤ) < n
    · rw [if_pos (by exact_mod_cast h1), if_pos h1]
    · rw [if_neg (by exact_mod_cast h1), if_neg h1]
      by_cases h2 : (40 : ℤ) < n
      · rw [if_pos (by exact_mod_cast h2), if_pos h2]
      · rw [if_neg (by exact_mod_cast h2), if_neg h2]
  refine ⟨?_, ?_, ?_, hagree⟩ <;>
  · simp only [renderImageVerdict]
    split_ifs with h1 h2 <;>
      (constructor <;> intro h <;>
        first
        | rfl
        | omega
        | exact absurd h (by decide))

/-- Claim C5: whenever analyze succeeds (text or image pipeline), the
breakdown list is non-empty — if the remote AI-detection signal fails, a
fallback heuristic entry is still pushed — so the overall score is always
a mean over at least one term and never a division by zero. -/
theorem breakdown_nonempty :
    ∀ (text : String) (remote : Option ℤ) (lingOk patOk : Bool) (fmt : String)
      (aiR dfR : Option ℤ) (metaOk : Bool) (fs : ℕ) (dims : Option (ℕ × ℕ))
      (pix : Option PixelData),
      (textAnalyze text remote lingOk patOk).breakdown ≠ [] ∧
      (imageAnalyze fmt aiR dfR metaOk fs dims pix).breakdown ≠ [] ∧
      (∃ s, ("AI Detection (Heuristic Fallback)", s) ∈
        (textAnalyze text none lingOk patOk).breakdown) ∧
      ("AI Detection (Heuristic)", 60) ∈
        (imageAnalyze fmt none dfR metaOk fs dims pix).breakdown := by
  intro text remote lingOk patOk fmt aiR dfR metaOk fs dims pix
  refine ⟨?_, ?_, ?_, ?_⟩
  · rcases remote with _ | h <;> simp [textAnalyze, textAnalyzeRaw]
  · rcases aiR with _ | s <;> simp [imageAnalyze, imageAnalyzeRaw]
  · exact ⟨JsNum.num ((fallbackAIDetection text).score : ℚ), by simp [textAnalyze, textAnalyzeRaw]⟩
  · simp [imageAnalyze, imageAnalyzeRaw, fallbackImageAnalysis]

/-- Claim C1: for every analysis that succeeds, the overall score equals
the rounded arithmetic unweighted mean of the scores of exactly the
breakdown entries present in the report, over at least one entry, in both
the text pipeline and the image pipeline. -/
theorem overallScore_is_rounded_mean :
    ∀ (text : String) (remote : Option ℤ) (lingOk patOk : Bool) (fmt : String)
      (aiR dfR : Option ℤ) (metaOk : Bool) (fs : ℕ) (dims : Option (ℕ × ℕ))
      (pix : Option PixelData),
      ((textAnalyze text remote lingOk patOk).overallScore =
        jroundJ (jdiv (jsum ((textAnalyze text remote lingOk patOk).breakdown.map (fun b => b.2)))
          (JsNum.num ((textAnalyze text remote lingOk patOk).breakdown.length : ℚ))) ∧
       1 ≤ (textAnalyze text remote lingOk patOk).breakdown.length) ∧
      ((imageAnalyze fmt aiR dfR metaOk fs dims pix).authenticityScore =
        jsRound (((((imageAnalyze fmt aiR dfR metaOk fs dims pix).breakdown.map (fun b => b.2)).sum : ℤ) : ℚ) /
          ((imageAnalyze fmt aiR dfR metaOk fs dims pix).breakdown.length : ℚ)) ∧
       1 ≤ (imageAnalyze fmt aiR dfR metaOk fs dims pix).breakdown.length) := by
  intro text remote lingOk patOk fmt aiR dfR metaOk fs dims pix
  refine ⟨⟨?_, ?_⟩, ?_, ?_⟩
  · simp only [textAnalyze, textAnalyzeRaw, foldl_jadd, jadd_num_zero_left, List.length_map]
  · rcases remote with _ | h <;> simp [textAnalyze, textAnalyzeRaw]
  · simp only [imageAnalyze, imageAnalyzeRaw, foldl_add_int, zero_add, List.length_map]
  · rcases aiR with _ | s <;> simp [imageAnalyze, imageAnalyzeRaw]

/-- Claim C8: the warnings list of every returned report is the
first-occurrence deduplication of the merged source-order warning
sequence: it contains no two equal strings, is a sublist of the raw merged
sequence (so surviving warnings keep their order of first appearance), and
keeps exactly the strings that occur in the raw sequence. -/
theorem warnings_deduplicated :
    ∀ (text : String) (remote : Option ℤ) (lingOk patOk : Bool) (fmt : String)
      (aiR dfR : Option ℤ) (metaOk : Bool) (fs : ℕ) (dims : Option (ℕ × ℕ))
      (pix : Option PixelData),
      ((textAnalyze text remote lingOk patOk).warnings =
        dedupFirst ((textAnalyzeRaw text remote lingOk patOk).warnings) ∧
       (textAnalyze text remote lingOk patOk).warnings.Nodup ∧
       (textAnalyze text remote lingOk patOk).warnings.Sublist
         ((textAnalyzeRaw text remote lingOk patOk).warnings) ∧
       ∀ s, s ∈ (textAnalyze text remote lingOk patOk).warnings ↔
         s ∈ (textAnalyzeRaw text remote lingOk patOk).warnings) ∧
      ((imageAnalyze fmt aiR dfR metaOk fs dims pix).warnings =
        dedupFirst ((imageAnalyzeRaw fmt aiR dfR metaOk fs dims pix).warnings) ∧
       (imageAnalyze fmt aiR dfR metaOk fs dims pix).warnings.Nodup ∧
       (imageAnalyze fmt aiR dfR metaOk fs dims pix).warnings.Sublist
         ((imageAnalyzeRaw fmt aiR dfR metaOk fs dims pix).warnings) ∧
       ∀ s, s ∈ (imageAnalyze fmt aiR dfR metaOk fs dims pix).warnings ↔
         s ∈ (imageAnalyzeRaw fmt aiR dfR metaOk fs dims pix).warnings) := by
  intro text remote lingOk patOk fmt aiR dfR metaOk fs dims pix
  have ht : (textAnalyze text remote lingOk patOk).warnings =
      dedupFirst ((textAnalyzeRaw text remote lingOk patOk).warnings) := rfl
  have hi : (imageAnalyze fmt aiR dfR metaOk fs dims pix).warnings =
      dedupFirst ((imageAnalyzeRaw fmt aiR dfR metaOk fs dims pix).warnings) := rfl
  refine ⟨⟨ht, ?_, ?_, ?_⟩, hi, ?_, ?_, ?_⟩
  · rw [ht]; exact dedupFirst_nodup _
  · rw [ht]; exact dedupFirst_sublist _
  · intro s; rw [ht]; exact dedupFirst_mem _ s
  · rw [hi]; exact dedupFirst_nodup _
  · rw [hi]; exact dedupFirst_sublist _
  · intro s; rw [hi]; exact dedupFirst_mem _ s

/-- Claim C6 (amended): the image pipeline's aiGenerated flag is true
exactly when the remote AI-detection signal succeeded with a score below
50 (false whenever the heuristic fallback is used); its deepfakeScore and
manipulationScore fields are the numeric complements 100 − Deepfake
Detection score (when that signal succeeds, else 0) and 100 − File
Integrity score (when metadata analysis settles, else 0), not booleans
from 50-point thresholds; the text pipeline computes no AI-generated
classification from its AI-detection score. -/
theorem report_flag_semantics :
    ∀ (fmt : String) (aiR dfR : Option ℤ) (metaOk : Bool) (fs : ℕ)
      (dims : Option (ℕ × ℕ)) (pix : Option PixelData),
      (imageAnalyze fmt aiR dfR metaOk fs dims pix).aiGenerated =
        (match aiR with | some s => decide (s < 50) | none => false) ∧
      (imageAnalyze fmt aiR dfR metaOk fs dims pix).deepfakeScore =
        (match dfR with | some s => 100 - s | none => 0) ∧
      (imageAnalyze fmt aiR dfR metaOk fs dims pix).manipulationScore =
        (if metaOk then 100 - (analyzeMetadata fs dims).integrityScore else 0) := by
  intro fmt aiR dfR metaOk fs dims pix
  rcases aiR with _ | s <;> rcases dfR with _ | t <;> cases metaOk <;>
    simp [imageAnalyze, imageAnalyzeRaw]

/-- Counterexample to claim C6 as stated: in a run where the remote
deepfake signal succeeds with score 20 (below the claimed 50-point
threshold) and metadata succeeds with File Integrity 60, the report's
deepfake and manipulation fields are the numeric complements 80 and 40 —
numbers, not booleans obtained by comparing the named breakdown entries
against 50. And the text pipeline, fed an AI-detection score of 45 (below
50), produces a report with no AI-generated classification: its only
classification is the verdict of the overall score, which here is
"suspicious", not the AI-generated verdict. -/
theorem flags_not_fifty_threshold_booleans :
    ("Deepfake Detection", (20 : ℤ)) ∈
      (imageAnalyze "PNG" (some 45) (some 20) true 5000 none none).breakdown ∧
    (imageAnalyze "PNG" (some 45) (some 20) true 5000 none none).deepfakeScore = 80 ∧
    (imageAnalyze "PNG" (some 45) (some 20) true 5000 none none).manipulationScore = 40 ∧
    ((45 : ℤ) < 50 ∧
      renderTextVerdict (textAnalyze "Hello there my good friend. How are you doing on this fine day?"
        (some 45) true true).overallScore = "suspicious") := by
  refine ⟨by decide, by decide, by decide, by decide, ?_⟩
  decide!

/-- Counterexample to claim C2 as stated: in the text call detectAIContent
a non-success response whose error body contains "loading" is NOT retried
after a delay — the client instead issues one request to the alternate
model (a different model, no delay event); and a non-success response with
a non-loading error is not a hard failure of the remote call either, since
the alternate model may succeed (here with score 90). -/
theorem text_nonsuccess_loading_not_retried :
    detectAIContent "t" "k" [⟨false, HFBody.obj (some "loading")⟩, ⟨false, HFBody.obj none⟩] =
      ([RemoteEvent.reqText primaryTextModel "t" "k",
        RemoteEvent.reqText alternateTextModel "t" "k"], RemoteOutcome.nullResult) ∧
    primaryTextModel ≠ alternateTextModel ∧
    RemoteEvent.delay 20000 ∉
      (detectAIContent "t" "k" [⟨false, HFBody.obj (some "loading")⟩, ⟨false, HFBody.obj none⟩]).1 ∧
    detectAIContent "t" "k"
        [⟨false, HFBody.obj (some "bad request")⟩, ⟨true, HFBody.arr [⟨"human", 9 / 10⟩]⟩] =
      ([RemoteEvent.reqText primaryTextModel "t" "k",
        RemoteEvent.reqText alternateTextModel "t" "k"], RemoteOutcome.score 90) := by
  refine ⟨by decide, by decide, by decide, by decide!⟩

/-- Claim C2 (amended): in the image inference calls (detectAIGenerated,
detectDeepfake) a non-success response whose error body contains "loading"
causes a fixed 20-second delay followed by an identical re-issued request
(same model, same payload, same credential), recursing without bound while
"loading" persists, and a non-success response with a non-loading (or
unparseable) error body makes that remote call fail (return null). In the
text call detectAIContent a non-success response instead triggers a single
alternate-model attempt; there the 20-second identical-request retry
applies to success responses whose JSON body carries an error containing
"loading", and a success response with a non-loading error fails the
call. -/
theorem loading_retry_behavior :
    (∀ (payload : ℕ) (apiKey : String) (r : HFResponse) (rest : List HFResponse) (e : String),
      r.ok = false → r.body = HFBody.obj (some e) → containsSubS "loading" e = true →
      detectAIGenerated payload apiKey (r :: rest) =
        (RemoteEvent.reqBin aiImageModel payload apiKey :: RemoteEvent.delay 20000 ::
          (detectAIGenerated payload apiKey rest).1, (detectAIGenerated payload apiKey rest).2)) ∧
    (∀ (payload : ℕ) (apiKey : String) (r : HFResponse) (rest : List HFResponse) (e : String),
      r.ok = false → r.body = HFBody.obj (some e) → containsSubS "loading" e = false →
      detectAIGenerated payload apiKey (r :: rest) =
        ([RemoteEvent.reqBin aiImageModel payload apiKey], RemoteOutcome.nullResult)) ∧
    (∀ (payload : ℕ) (apiKey : String) (r : HFResponse) (rest : List HFResponse),
      r.ok = false → r.body = HFBody.obj none →
      detectAIGenerated payload apiKey (r :: rest) =
        ([RemoteEvent.reqBin aiImageModel payload apiKey], RemoteOutcome.nullResult)) ∧
    (∀ (payload : ℕ) (apiKey : String) (r : HFResponse) (rest : List HFResponse) (e : String),
      r.ok = false → r.body = HFBody.obj (some e) → containsSubS "loading" e = true →
      detectDeepfake payload apiKey (r :: rest) =
        (RemoteEvent.reqBin deepfakeModel payload apiKey :: RemoteEvent.delay 20000 ::
          (detectDeepfake payload apiKey rest).1, (detectDeepfake payload apiKey rest).2)) ∧
    (∀ (payload : ℕ) (apiKey : String) (r : HFResponse) (rest : List HFResponse) (e : String),
      r.ok = false → r.body = HFBody.obj (some e) → containsSubS "loading" e = false →
      detectDeepfake payload apiKey (r :: rest) =
        ([RemoteEvent.reqBin deepfakeModel payload apiKey], RemoteOutcome.nullResult)) ∧
    (∀ (text apiKey : String) (r : HFResponse) (rest : List HFResponse),
      r.ok = false →
      detectAIContent text apiKey (r :: rest) =
        (RemoteEvent.reqText primaryTextModel (jsTake2000 text) apiKey ::
          (tryAlternateModel text apiKey rest).1, (tryAlternateModel text apiKey rest).2)) ∧
    (∀ (text apiKey : String) (r : HFResponse) (rest : List HFResponse) (e : String),
      r.ok = true → r.body = HFBody.obj (some e) → containsSubS "loading" e = true →
      detectAIContent text apiKey (r :: rest) =
        (RemoteEvent.reqText primaryTextModel (jsTake2000 text) apiKey ::
          RemoteEvent.delay 20000 :: (detectAIContent text apiKey rest).1,
          (detectAIContent text apiKey rest).2)) ∧
    (∀ (text apiKey : String) (r : HFResponse) (rest : List HFResponse) (e : String),
      r.ok = true → r.body = HFBody.obj (some e) → containsSubS "loading" e = false →
      detectAIContent text apiKey (r :: rest) =
        ([RemoteEvent.reqText primaryTextModel (jsTake2000 text) apiKey],
          RemoteOutcome.nullResult)) := by
  refine ⟨?_, ?_, ?_, ?_, ?_, ?_, ?_, ?_⟩
  · rintro payload apiKey ⟨rok, rbody⟩ rest e hok hbody hload
    subst hok; subst hbody
    simp [detectAIGenerated, hload]
  · rintro payload apiKey ⟨rok, rbody⟩ rest e hok hbody hload
    subst hok; subst hbody
    simp [detectAIGenerated, hload]
  · rintro payload apiKey ⟨rok, rbody⟩ rest hok hbody
    subst hok; subst hbody
    simp [detectAIGenerated]
  · rintro payload apiKey ⟨rok, rbody⟩ rest e hok hbody hload
    subst hok; subst hbody
    simp [detectDeepfake, hload]
  · rintro payload apiKey ⟨rok, rbody⟩ rest e hok hbody hload
    subst hok; subst hbody
    simp [detectDeepfake, hload]
  · rintro text apiKey ⟨rok, rbody⟩ rest hok
    subst hok
    simp [detectAIContent]
  · rintro text apiKey ⟨rok, rbody⟩ rest e hok hbody hload
    subst hok; subst hbody
    simp [detectAIContent, hload]
  · rintro text apiKey ⟨rok, rbody⟩ rest e hok hbody hload
    subst hok; subst hbody
    simp [detectAIContent, hload]

/-- Witness for the amended C2 theorem at concrete responses: a loading
error retries identically after the fixed delay, a non-loading error fails
the image call, a text non-success falls through to the alternate model,
and an ok text response with a loading error body retries identically. -/
theorem loading_retry_behavior_witness :
    (detectAIGenerated 7 "k" [⟨false, HFBody.obj (some "model is loading")⟩] =
      (RemoteEvent.reqBin aiImageModel 7 "k" :: RemoteEvent.delay 20000 ::
        (detectAIGenerated 7 "k" []).1, (detectAIGenerated 7 "k" []).2)) ∧
    (detectAIGenerated 7 "k" [⟨false, HFBody.obj (some "unauthorized")⟩] =
      ([RemoteEvent.reqBin aiImageModel 7 "k"], RemoteOutcome.nullResult)) ∧
    (detectAIGenerated 7 "k" [⟨false, HFBody.obj none⟩] =
      ([RemoteEvent.reqBin aiImageModel 7 "k"], RemoteOutcome.nullResult)) ∧
    (detectDeepfake 7 "k" [⟨false, HFBody.obj (some "model is loading")⟩] =
      (RemoteEvent.reqBin deepfakeModel 7 "k" :: RemoteEvent.delay 20000 ::
        (detectDeepfake 7 "k" []).1, (detectDeepfake 7 "k" []).2)) ∧
    (detectDeepfake 7 "k" [⟨false, HFBody.obj (some "unauthorized")⟩] =
      ([RemoteEvent.reqBin deepfakeModel 7 "k"], RemoteOutcome.nullResult)) ∧
    (detectAIContent "t" "k" [⟨false, HFBody.obj none⟩] =
      (RemoteEvent.reqText primaryTextModel (jsTake2000 "t") "k" ::
        (tryAlternateModel "t" "k" []).1, (tryAlternateModel "t" "k" []).2)) ∧
    (detectAIContent "t" "k" [⟨true, HFBody.obj (some "model is loading")⟩] =
      (RemoteEvent.reqText primaryTextModel (jsTake2000 "t") "k" ::
        RemoteEvent.delay 20000 :: (detectAIContent "t" "k" []).1,
        (detectAIContent "t" "k" []).2)) ∧
    (detectAIContent "t" "k" [⟨true, HFBody.obj (some "bad input")⟩] =
      ([RemoteEvent.reqText primaryTextModel (jsTake2000 "t") "k"],
        RemoteOutcome.nullResult)) :=
  ⟨loading_retry_behavior.1 7 "k" _ [] "model is loading" rfl rfl (by decide),
   loading_retry_behavior.2.1 7 "k" _ [] "unauthorized" rfl rfl (by decide),
   loading_retry_behavior.2.2.1 7 "k" _ [] rfl rfl,
   loading_retry_behavior.2.2.2.1 7 "k" _ [] "model is loading" rfl rfl (by decide),
   loading_retry_behavior.2.2.2.2.1 7 "k" _ [] "unauthorized" rfl rfl (by decide),
   loading_retry_behavior.2.2.2.2.2.1 "t" "k" _ [] rfl,
   loading_retry_behavior.2.2.2.2.2.2.1 "t" "k" _ [] "model is loading" rfl rfl (by decide),
   loading_retry_behavior.2.2.2.2.2.2.2 "t" "k" _ [] "bad input" rfl rfl (by decide)⟩

/-- Claim C9: when a successful remote inference response is parsed and no
entry of the label/score array matches the expected label vocabulary, the
realness score returned is exactly 50 and the call does not fail (it
returns a score, not null). -/
theorem no_matching_label_defaults_fifty :
    ∀ (rows : List LabelRow) (text apiKey : String) (payload : ℕ),
      ((∀ r ∈ rows, matchHumanLabel r = false) →
        detectAIContent text apiKey [⟨true, HFBody.arr rows⟩] =
          ([RemoteEvent.reqText primaryTextModel (jsTake2000 text) apiKey],
            RemoteOutcome.score 50)) ∧
      ((∀ r ∈ rows, matchImageAILabel r = false) →
        detectAIGenerated payload apiKey [⟨true, HFBody.arr rows⟩] =
          ([RemoteEvent.reqBin aiImageModel payload apiKey], RemoteOutcome.score 50)) ∧
      ((∀ r ∈ rows, matchDeepfakeLabel r = false) →
        detectDeepfake payload apiKey [⟨true, HFBody.arr rows⟩] =
          ([RemoteEvent.reqBin deepfakeModel payload apiKey], RemoteOutcome.score 50)) := by
  intro rows text apiKey payload
  refine ⟨fun h => ?_, fun h => ?_, fun h => ?_⟩
  · simp [detectAIContent, parseHumanFlat, parseRows_no_match matchHumanLabel rows h]
  · simp [detectAIGenerated, parseImageAIFlat, parseRows_no_match matchImageAILabel rows h]
  · simp [detectDeepfake, parseDeepfakeFlat, parseRows_no_match matchDeepfakeLabel rows h]

/-- Witness for C9: a response whose only label is "fake" matches none of
the vocabularies, so all three calls return the neutral score 50. -/
theorem no_matching_label_defaults_fifty_witness :
    detectAIContent "t" "k" [⟨true, HFBody.arr [⟨"fake", 9 / 10⟩]⟩] =
      ([RemoteEvent.reqText primaryTextModel (jsTake2000 "t") "k"], RemoteOutcome.score 50) ∧
    detectAIGenerated 7 "k" [⟨true, HFBody.arr [⟨"fake", 9 / 10⟩]⟩] =
      ([RemoteEvent.reqBin aiImageModel 7 "k"], RemoteOutcome.score 50) ∧
    detectDeepfake 7 "k" [⟨true, HFBody.arr [⟨"fake", 9 / 10⟩]⟩] =
      ([RemoteEvent.reqBin deepfakeModel 7 "k"], RemoteOutcome.score 50) :=
  ⟨(no_matching_label_defaults_fifty [⟨"fake", 9 / 10⟩] "t" "k" 7).1 (by decide),
   (no_matching_label_defaults_fifty [⟨"fake", 9 / 10⟩] "t" "k" 7).2.1 (by decide),
   (no_matching_label_defaults_fifty [⟨"fake", 9 / 10⟩] "t" "k" 7).2.2 (by decide)⟩

theorem fallback_score_eq_conds (t : String) :
    (fallbackAIDetection t).score = fallbackScoreOfConds (fallbackConds t) := by
  rcases h : fallbackConds t with ⟨a, b, c, d, e⟩
  simp only [fallbackAIDetection, h, fallbackScoreOfConds]
  cases a <;> cases b <;> cases c <;> cases d <;> cases e <;> decide

theorem fallbackScoreOfConds_mono :
    ∀ c d, condsImp c d → fallbackScoreOfConds c ≤ fallbackScoreOfConds d := by
  decide

/-- Claim C7: the heuristic text fallback starts from a baseline of 75,
subtracts a fixed penalty for each triggered condition (sentence-length
variance < 15; more than 3 formal phrases; type-token ratio < 0.4; more
than 2 sensationalist markers; more than 5 absolute words), clamps the
result to [5, 95], and is monotonically decreasing in the set of triggered
conditions: a text whose triggered conditions include those of another
scores no higher, and a text triggering all five conditions scores
strictly lower than one triggering only the variance condition. -/
theorem fallback_monotone_in_conditions (t1 t2 : String) :
    ((fallbackAIDetection t1).score = fallbackScoreOfConds (fallbackConds t1)) ∧
    (condsImp (fallbackConds t1) (fallbackConds t2) →
      (fallbackAIDetection t1).score ≤ (fallbackAIDetection t2).score) ∧
    (fallbackConds t1 = (true, true, true, true, true) →
      fallbackConds t2 = (true, false, false, false, false) →
      (fallbackAIDetection t1).score < (fallbackAIDetection t2).score) := by
  refine ⟨fallback_score_eq_conds t1, fun h => ?_, fun h1 h2 => ?_⟩
  · rw [fallback_score_eq_conds t1, fallback_score_eq_conds t2]
    exact fallbackScoreOfConds_mono _ _ h
  · rw [fallback_score_eq_conds t1, fallback_score_eq_conds t2, h1, h2]
    decide

/-- Witness for C7: a 28-word text triggering all five penalty conditions
(score 17) against a text triggering only the variance condition
(score 60). -/
theorem fallback_monotone_in_conditions_witness :
    fallbackConds "furthermore moreover additionally significantly shocking breaking urgent always always always never never never never. furthermore moreover additionally significantly shocking breaking urgent always always always never never never never." =
      (true, true, true, true, true) ∧
    fallbackConds "the cat sat here today. the dog ran there now." =
      (true, false, false, false, false) ∧
    (fallbackAIDetection "furthermore moreover additionally significantly shocking breaking urgent always always always never never never never. furthermore moreover additionally significantly shocking breaking urgent always always always never never never never.").score ≤
      (fallbackAIDetection "the cat sat here today. the dog ran there now.").score ∧
    (fallbackAIDetection "furthermore moreover additionally significantly shocking breaking urgent always always always never never never never. furthermore moreover additionally significantly shocking breaking urgent always always always never never never never.").score <
      (fallbackAIDetection "the cat sat here today. the dog ran there now.").score :=
  ⟨by decide!, by decide!,
   (fallback_monotone_in_conditions _ _).2.1 (by decide!),
   (fallback_monotone_in_conditions _ _).2.2 (by decide!) (by decide!)⟩

theorem sq_fold_num (lens : List ℕ) (a : ℚ) : ∀ s : ℚ, 0 ≤ s →
    ∃ v, lens.foldl (fun acc l =>
        jadd acc (jmul (jsub (JsNum.num (l : ℚ)) (JsNum.num a))
          (jsub (JsNum.num (l : ℚ)) (JsNum.num a)))) (JsNum.num s) = JsNum.num v ∧ 0 ≤ v := by
  induction lens with
  | nil => intro s hs; exact ⟨s, rfl, hs⟩
  | cons l ls ih =>
    intro s hs
    simp only [List.foldl_cons, jsub, jmul, jadd]
    exact ih _ (by nlinarith [mul_self_nonneg ((l : ℚ) - a)])

theorem sentenceVariance_num (text : String) (hs : sentencesOf text ≠ []) :
    ∃ v, sentenceVariance text = JsNum.num v ∧ 0 ≤ v := by
  have hlen : (sentenceLengthsOf text).length ≠ 0 := by
    simpa [sentenceLengthsOf, List.length_eq_zero] using hs
  have hq : ((sentenceLengthsOf text).length : ℚ) ≠ 0 := Nat.cast_ne_zero.mpr hlen
  have hq0 : (0 : ℚ) ≤ ((sentenceLengthsOf text).length : ℚ) := Nat.cast_nonneg _
  simp only [sentenceVariance, jdiv, if_neg hq]
  obtain ⟨v, hv, hv0⟩ := sq_fold_num (sentenceLengthsOf text)
    (((sentenceLengthsOf text).map (fun l => (l : ℚ))).sum / ((sentenceLengthsOf text).length : ℚ))
    0 le_rfl
  rw [hv]
  simp only [if_neg hq]
  exact ⟨_, rfl, div_nonneg hv0 hq0⟩

theorem jsRoundSqrtQ_le95 {x : ℚ} (h : x ≤ 9025) : jsRoundSqrtQ x ≤ 95 := by
  unfold jsRoundSqrtQ
  have h4 : 4 * x ≤ ((36100 : ℤ) : ℚ) := by push_cast; linarith
  have hf : ⌊4 * x⌋ ≤ 36100 := by
    have := Int.floor_le_floor h4
    simpa using this
  have ht : Int.toNat ⌊4 * x⌋ ≤ 36100 := by omega
  have hsq : Nat.sqrt (Int.toNat ⌊4 * x⌋) ≤ Nat.sqrt 36100 := Nat.sqrt_le_sqrt ht
  have h190 : Nat.sqrt 36100 ≤ 190 := by
    by_contra hc
    push_neg at hc
    have := Nat.le_sqrt.mp hc
    omega
  omega

theorem ling_bounds (text : String) (hw : cleanWordsOf text ≠ []) (hs : sentencesOf text ≠ []) :
    ∃ a b c : ℚ, (analyzeLinguistics text).vocabularyScore = JsNum.num a ∧ 0 ≤ a ∧ a ≤ 95 ∧
      (analyzeLinguistics text).variationScore = JsNum.num b ∧ 0 ≤ b ∧ b ≤ 95 ∧
      (analyzeLinguistics text).diversityScore = JsNum.num c ∧ 0 ≤ c ∧ c ≤ 95 := by
  have hcw0 : ((cleanWordsOf text).length : ℚ) ≠ 0 :=
    Nat.cast_ne_zero.mpr (by simpa [List.length_eq_zero] using hw)
  obtain ⟨v, hv, hv0⟩ := sentenceVariance_num text hs
  set q : ℚ := ((cleanWordsOf text).dedup.length : ℚ) / ((cleanWordsOf text).length : ℚ) with hqdef
  have hq0 : 0 ≤ q := div_nonneg (Nat.cast_nonneg _) (Nat.cast_nonneg _)
  have hvoc : (analyzeLinguistics text).vocabularyScore =
      JsNum.num (jsRound (min (q * 130) 95)) := by
    simp only [analyzeLinguistics, jdiv, if_neg hcw0, jmul, jminC, jroundJ, hqdef]
  have hvocb : (0 : ℚ) ≤ (jsRound (min (q * 130) 95) : ℚ) ∧
      ((jsRound (min (q * 130) 95) : ℚ)) ≤ 95 := by
    have h1 : (0 : ℤ) ≤ jsRound (min (q * 130) 95) :=
      jsRound_nonneg (le_min (by positivity) (by norm_num))
    have h2 : jsRound (min (q * 130) 95) ≤ (95 : ℤ) :=
      jsRound_le (by push_cast; exact min_le_right _ _)
    constructor <;> exact_mod_cast (by assumption)
  have hvar : (analyzeLinguistics text).variationScore = variationScoreOfVar (sentenceVariance text) := rfl
  rw [hv] at hvar
  simp only [variationScoreOfVar] at hvar
  by_cases h9 : 64 * v ≤ 9025
  case pos =>
    rw [if_pos h9] at hvar
    have hb1 : (0 : ℚ) ≤ (jsRoundSqrtQ (64 * v) : ℚ) := by positivity
    have hb2 : ((jsRoundSqrtQ (64 * v) : ℚ)) ≤ 95 := by
      exact_mod_cast jsRoundSqrtQ_le95 (by linarith)
    have hdiv : (analyzeLinguistics text).diversityScore =
        JsNum.num (jsRound ((jsRound (min (q * 130) 95) + (jsRoundSqrtQ (64 * v) : ℚ)) / 2)) := by
      have : (analyzeLinguistics text).diversityScore =
          jroundJ (jdiv (jadd (analyzeLinguistics text).vocabularyScore
            (analyzeLinguistics text).variationScore) (JsNum.num 2)) := rfl
      rw [this, hvoc, hvar]
      simp [jadd, jdiv, jroundJ]
    refine ⟨_, _, _, hvoc, hvocb.1, hvocb.2, hvar, hb1, hb2, hdiv, ?_, ?_⟩
    · have h0 : (0 : ℤ) ≤
          jsRound ((((jsRound (q * 130 ⊓ 95) : ℤ) : ℚ) + (jsRoundSqrtQ (64 * v) : ℚ)) / 2) :=
        jsRound_nonneg (div_nonneg (add_nonneg hvocb.1 hb1) (by norm_num))
      exact_mod_cast h0
    · have h95 : (((jsRound (q * 130 ⊓ 95) : ℤ) : ℚ) + (jsRoundSqrtQ (64 * v) : ℚ)) / 2 ≤
          ((95 : ℤ) : ℚ) := by
        push_cast
        linarith [hvocb.1, hvocb.2, hb1, hb2]
      have h1 := jsRound_le h95
      exact_mod_cast h1
  case neg =>
    rw [if_neg h9] at hvar
    have hdiv : (analyzeLinguistics text).diversityScore =
        JsNum.num (jsRound ((jsRound (min (q * 130) 95) + (95 : ℚ)) / 2)) := by
      have : (analyzeLinguistics text).diversityScore =
          jroundJ (jdiv (jadd (analyzeLinguistics text).vocabularyScore
            (analyzeLinguistics text).variationScore) (JsNum.num 2)) := rfl
      rw [this, hvoc, hvar]
      simp [jadd, jdiv, jroundJ]
    refine ⟨_, _, _, hvoc, hvocb.1, hvocb.2, hvar, by norm_num, le_rfl, hdiv, ?_, ?_⟩
    · have h0 : (0 : ℤ) ≤ jsRound ((((jsRound (q * 130 ⊓ 95) : ℤ) : ℚ) + (95 : ℚ)) / 2) :=
        jsRound_nonneg (div_nonneg (add_nonneg hvocb.1 (by norm_num)) (by norm_num))
      exact_mod_cast h0
    · have h95 : (((jsRound (q * 130 ⊓ 95) : ℤ) : ℚ) + (95 : ℚ)) / 2 ≤ ((95 : ℤ) : ℚ) := by
        push_cast
        linarith [hvocb.1, hvocb.2]
      have h1 := jsRound_le h95
      exact_mod_cast h1

theorem analyzeMetadata_bounds (fs : ℕ) (dims : Option (ℕ × ℕ)) :
    (10 ≤ (analyzeMetadata fs dims).integrityScore ∧ (analyzeMetadata fs dims).integrityScore ≤ 95) ∧
    (10 ≤ (analyzeMetadata fs dims).metadataScore ∧ (analyzeMetadata fs dims).metadataScore ≤ 95) := by
  rcases dims with _ | ⟨w, h⟩ <;>
    exact ⟨clampZ_bounds _ (by norm_num), clampZ_bounds _ (by norm_num)⟩

theorem analyzePixelPatterns_bounds (pix : Option PixelData) :
    10 ≤ (analyzePixelPatterns pix).1 ∧ (analyzePixelPatterns pix).1 ≤ 95 := by
  rcases pix with _ | p <;> exact clampZ_bounds _ (by norm_num)

set_option maxHeartbeats 3200000 in
/-- Claim C3: every score stored in a breakdown entry of a returned report
lies in [0, 100] — the remote-derived scores (computed as
`Math.round(score * 100)` from response rows whose scores are model
probabilities in [0, 1], under any of the three label parsers that can
feed a pipeline) and all heuristic scores (clamped to [5, 95] or
[10, 95]), in both pipelines; for the text pipeline non-degenerate input
is assumed (a clean word and a sentence exist) so the linguistic scores
are finite. -/
theorem breakdown_scores_in_range :
    ∀ (text : String) (rows dfRows : List LabelRow) (remote : Option ℤ) (lingOk patOk : Bool)
      (fmt : String) (metaOk : Bool) (fs : ℕ) (dims : Option (ℕ × ℕ)) (pix : Option PixelData),
      (∀ r ∈ rows, 0 ≤ r.score ∧ r.score ≤ 1) →
      (∀ r ∈ dfRows, 0 ≤ r.score ∧ r.score ≤ 1) →
      cleanWordsOf text ≠ [] → sentencesOf text ≠ [] →
      (remote = none ∨ remote = some (parseHumanFlat rows) ∨ remote = some (parseAltFlat rows)) →
      ((∀ p ∈ (textAnalyze text remote lingOk patOk).breakdown, ScoreIn 0 100 p.2) ∧
       (∀ p ∈ (imageAnalyze fmt (some (parseImageAIFlat rows)) (some (parseDeepfakeFlat dfRows))
          metaOk fs dims pix).breakdown, 0 ≤ p.2 ∧ p.2 ≤ 100) ∧
       (∀ p ∈ (imageAnalyze fmt none none metaOk fs dims pix).breakdown,
          0 ≤ p.2 ∧ p.2 ≤ 100)) := by
  intro text rows dfRows remote lingOk patOk fmt metaOk fs dims pix hrows hdfrows hw hs hrem
  obtain ⟨a, b, c, hvoc, ha0, ha95, hvar, hb0, hb95, hdiv, hc0, hc95⟩ := ling_bounds text hw hs
  have hfbZ : 5 ≤ (fallbackAIDetection text).score ∧ (fallbackAIDetection text).score ≤ 95 := by
    rw [fallback_score_eq_conds]
    exact clampZ_bounds _ (by norm_num)
  have hnat : 5 ≤ (analyzePatterns text).naturalScore ∧
      (analyzePatterns text).naturalScore ≤ 95 := clampZ_bounds _ (by norm_num)
  have hcred : 5 ≤ (analyzePatterns text).credibilityScore ∧
      (analyzePatterns text).credibilityScore ≤ 95 := clampZ_bounds _ (by norm_num)
  have hph := parseRows_bound matchHumanLabel rows hrows
  have hpa := parseRows_bound matchAltLabel rows hrows
  have hpi := parseRows_bound matchImageAILabel rows hrows
  have hpd := parseRows_bound matchDeepfakeLabel dfRows hdfrows
  have hmeta := analyzeMetadata_bounds fs dims
  have hpix := analyzePixelPatterns_bounds pix
  have scoreInOfZ : ∀ z : ℤ, 0 ≤ z → z ≤ 100 → ScoreIn 0 100 (JsNum.num (z : ℚ)) := by
    intro z h1 h2
    exact ⟨(z : ℚ), rfl, by exact_mod_cast h1, by exact_mod_cast h2⟩
  have S1 : ScoreIn 0 100 (analyzeLinguistics text).vocabularyScore :=
    ⟨a, hvoc, ha0, le_trans ha95 (by norm_num)⟩
  have S2 : ScoreIn 0 100 (analyzeLinguistics text).variationScore :=
    ⟨b, hvar, hb0, le_trans hb95 (by norm_num)⟩
  have S3 : ScoreIn 0 100 (analyzeLinguistics text).diversityScore :=
    ⟨c, hdiv, hc0, le_trans hc95 (by norm_num)⟩
  have S4 : ScoreIn 0 100 (JsNum.num ((parseHumanFlat rows : ℤ) : ℚ)) :=
    scoreInOfZ _ hph.1 hph.2
  have S5 : ScoreIn 0 100 (JsNum.num ((parseAltFlat rows : ℤ) : ℚ)) :=
    scoreInOfZ _ hpa.1 hpa.2
  have S6 : ScoreIn 0 100 (JsNum.num (((fallbackAIDetection text).score : ℤ) : ℚ)) :=
    scoreInOfZ _ (le_trans (by norm_num) hfbZ.1) (le_trans hfbZ.2 (by norm_num))
  have S7 : ScoreIn 0 100 (JsNum.num (((analyzePatterns text).naturalScore : ℤ) : ℚ)) :=
    scoreInOfZ _ (le_trans (by norm_num) hnat.1) (le_trans hnat.2 (by norm_num))
  have S8 : ScoreIn 0 100 (JsNum.num (((analyzePatterns text).credibilityScore : ℤ) : ℚ)) :=
    scoreInOfZ _ (le_trans (by norm_num) hcred.1) (le_trans hcred.2 (by norm_num))
  have I1 : 0 ≤ parseImageAIFlat rows ∧ parseImageAIFlat rows ≤ 100 := ⟨hpi.1, hpi.2⟩
  have I2 : 0 ≤ parseDeepfakeFlat dfRows ∧ parseDeepfakeFlat dfRows ≤ 100 := ⟨hpd.1, hpd.2⟩
  have I3 : 0 ≤ (analyzeMetadata fs dims).integrityScore ∧
      (analyzeMetadata fs dims).integrityScore ≤ 100 :=
    ⟨le_trans (by norm_num) hmeta.1.1, le_trans hmeta.1.2 (by norm_num)⟩
  have I4 : 0 ≤ (analyzeMetadata fs dims).metadataScore ∧
      (analyzeMetadata fs dims).metadataScore ≤ 100 :=
    ⟨le_trans (by norm_num) hmeta.2.1, le_trans hmeta.2.2 (by norm_num)⟩
  have I5 : 0 ≤ (analyzePixelPatterns pix).1 ∧ (analyzePixelPatterns pix).1 ≤ 100 :=
    ⟨le_trans (by norm_num) hpix.1, le_trans hpix.2 (by norm_num)⟩
  refine ⟨?_, ?_, ?_⟩
  · rcases hrem with rfl | rfl | rfl <;> cases lingOk <;> cases patOk <;>
      (simp [textAnalyze, textAnalyzeRaw, List.forall_mem_append, List.forall_mem_cons]
       repeat' apply And.intro) <;>
      first
      | with_reducible exact S1
      | with_reducible exact S2
      | with_reducible exact S3
      | with_reducible exact S4
      | with_reducible exact S5
      | with_reducible exact S6
      | with_reducible exact S7
      | with_reducible exact S8
      | trivial
  · cases metaOk <;>
      (simp [imageAnalyze, imageAnalyzeRaw, List.forall_mem_append, List.forall_mem_cons]
       repeat' apply And.intro) <;>
      first
      | with_reducible exact I1
      | with_reducible exact I2
      | with_reducible exact I3
      | with_reducible exact I4
      | with_reducible exact I5
      | with_reducible exact I1.1
      | with_reducible exact I1.2
      | with_reducible exact I2.1
      | with_reducible exact I2.2
      | with_reducible exact I3.1
      | with_reducible exact I3.2
      | with_reducible exact I4.1
      | with_reducible exact I4.2
      | with_reducible exact I5.1
      | with_reducible exact I5.2
      | norm_num [fallbackImageAnalysis]
      | trivial
  · cases metaOk <;>
      (simp [imageAnalyze, imageAnalyzeRaw, List.forall_mem_append, List.forall_mem_cons]
       repeat' apply And.intro) <;>
      first
      | with_reducible exact I3
      | with_reducible exact I4
      | with_reducible exact I5
      | with_reducible exact I3.1
      | with_reducible exact I3.2
      | with_reducible exact I4.1
      | with_reducible exact I4.2
      | with_reducible exact I5.1
      | with_reducible exact I5.2
      | norm_num [fallbackImageAnalysis]
      | trivial

/-- Witness for C3 at concrete inputs: a short non-degenerate text, a
matching "Real" response row with probability 0.9, a deepfake row with
probability 0.87, and a metadata/pixel configuration. -/
theorem breakdown_scores_in_range_witness :
    cleanWordsOf "Hello there. Fine day?" ≠ [] ∧
    sentencesOf "Hello there. Fine day?" ≠ [] ∧
    ((∀ p ∈ (textAnalyze "Hello there. Fine day?"
        (some (parseHumanFlat [⟨"Real", 9 / 10⟩])) true true).breakdown, ScoreIn 0 100 p.2) ∧
     (∀ p ∈ (imageAnalyze "PNG" (some (parseImageAIFlat [⟨"Real", 9 / 10⟩]))
        (some (parseDeepfakeFlat [⟨"real face", 87 / 100⟩])) true 5000
        (some (512, 512)) none).breakdown, 0 ≤ p.2 ∧ p.2 ≤ 100) ∧
     (∀ p ∈ (imageAnalyze "PNG" none none true 5000 (some (512, 512)) none).breakdown,
        0 ≤ p.2 ∧ p.2 ≤ 100)) :=
  ⟨by decide, by decide,
   breakdown_scores_in_range "Hello there. Fine day?" [⟨"Real", 9 / 10⟩]
     [⟨"real face", 87 / 100⟩] _ true true "PNG" true 5000 (some (512, 512)) none
     (by decide!) (by decide!) (by decide) (by decide) (Or.inr (Or.inl rfl))⟩

theorem normCharApos_alpha {c : Char} (h : c.isAlpha = true) : ∃ d, normCharApos c = some d := by
  unfold normCharApos
  by_cases hl : c.isLower
  · exact ⟨c, by simp [hl]⟩
  · have hu : c.isUpper = true := by
      simp only [Char.isAlpha, Bool.or_eq_true] at h
      rcases h with h | h
      · exact h
      · exact absurd h hl
    exact ⟨Char.ofNat (c.toNat + 32), by simp [hl, hu]⟩

theorem mem_dropWhile_of_not {p : α → Bool} {c : α} :
    ∀ {l : List α}, c ∈ l → p c = false → c ∈ l.dropWhile p := by
  intro l
  induction l with
  | nil => intro h; exact absurd h (List.not_mem_nil c)
  | cons a as ih =>
    intro hc hp
    by_cases hpa : p a
    · rw [List.dropWhile_cons_of_pos hpa]
      rcases List.mem_cons.mp hc with rfl | hc'
      · rw [hp] at hpa; exact absurd hpa (by simp)
      · exact ih hc' hp
    · rw [List.dropWhile_cons_of_neg hpa]
      exact hc

theorem stringMk_eq_empty_iff (l : List Char) : String.mk l = "" ↔ l = [] := by
  constructor
  · intro h
    have := congrArg String.data h
    simpa using this
  · rintro rfl
    rfl

theorem jsTrim_empty_all_ws (s : String) (h : jsTrim s = "") :
    ∀ c ∈ s.toList, isWsChar c = true := by
  intro c hc
  by_contra hne
  have hne' : isWsChar c = false := by
    cases hval : isWsChar c
    · rfl
    · exact absurd hval hne
  have h1 : c ∈ s.toList.dropWhile isWsChar := mem_dropWhile_of_not hc hne'
  have h2 : c ∈ (s.toList.dropWhile isWsChar).reverse := List.mem_reverse.mpr h1
  have h3 : c ∈ (s.toList.dropWhile isWsChar).reverse.dropWhile isWsChar :=
    mem_dropWhile_of_not h2 hne'
  have h4 : c ∈ ((s.toList.dropWhile isWsChar).reverse.dropWhile isWsChar).reverse :=
    List.mem_reverse.mpr h3
  have h5 : ((s.toList.dropWhile isWsChar).reverse.dropWhile isWsChar).reverse = [] :=
    (stringMk_eq_empty_iff _).mp h
  rw [h5] at h4
  exact List.not_mem_nil c h4

theorem splitRunAux_all_sep (p : Char → Bool) :
    ∀ (cs : List Char) (cur : List Char) (b : Bool), (∀ c ∈ cs, p c = true) →
      ∀ piece ∈ splitRunAux p cs cur b, piece = cur.reverse ∨ piece = [] := by
  intro cs
  induction cs with
  | nil =>
    intro cur b _ piece hp
    cases b <;> simp [splitRunAux] at hp <;> simp [hp]
  | cons c rest ih =>
    intro cur b hall piece hp
    have hc : p c = true := hall c (List.mem_cons_self c rest)
    have hrest : ∀ x ∈ rest, p x = true := fun x hx => hall x (List.mem_cons_of_mem c hx)
    cases b
    · simp only [splitRunAux, if_pos hc, Bool.false_eq_true, if_neg] at hp
      rcases List.mem_cons.mp hp with rfl | hp'
      · exact Or.inl rfl
      · rcases ih [] true hrest piece hp' with h | h
        · exact Or.inr (by simpa using h)
        · exact Or.inr h
    · simp only [splitRunAux, if_pos hc, if_pos] at hp
      rcases ih [] true hrest piece hp with h | h
      · exact Or.inr (by simpa using h)
      · exact Or.inr h

theorem splitRunAux_no_sep (p : Char → Bool) :
    ∀ (cs : List Char) (cur : List Char), (∀ c ∈ cs, p c = false) →
      splitRunAux p cs cur false = [cur.reverse ++ cs] := by
  intro cs
  induction cs with
  | nil => intro cur _; simp [splitRunAux]
  | cons c rest ih =>
    intro cur hall
    have hc : p c = false := hall c (List.mem_cons_self c rest)
    have hrest : ∀ x ∈ rest, p x = false := fun x hx => hall x (List.mem_cons_of_mem c hx)
    simp only [splitRunAux, hc, Bool.false_eq_true, if_neg, ih (c :: cur) hrest,
      List.reverse_cons]
    simp

theorem wsChar_not_sentSep {c : Char} (h : isWsChar c = true) : isSentSep c = false := by
  simp only [isWsChar, decide_eq_true_eq] at h
  rcases h with rfl | rfl | rfl | rfl | rfl | rfl <;> decide

theorem degenerate_pieces (text : String) (h : jsTrim text = "") :
    cleanWordsOf text = [] ∧ sentencesOf text = [] := by
  have hws := jsTrim_empty_all_ws text h
  constructor
  · have hpieces : ∀ w ∈ jsSplitWs text, w = "" := by
      intro w hw
      simp only [jsSplitWs, List.mem_map] at hw
      obtain ⟨cs, hcs, rfl⟩ := hw
      rcases splitRunAux_all_sep isWsChar text.toList [] false hws cs hcs with h1 | h1 <;>
        simp [h1]
    apply List.filter_eq_nil.mpr
    intro w hw
    simp only [List.mem_map] at hw
    obtain ⟨x, hx, rfl⟩ := hw
    rw [hpieces x hx]
    simp [normLing]
  · have hnosep : ∀ c ∈ text.toList, isSentSep c = false :=
      fun c hc => wsChar_not_sentSep (hws c hc)
    have : jsSplitSent text = [text] := by
      simp only [jsSplitSent, splitRunAux_no_sep isSentSep text.toList [] hnosep]
      simp [List.map]
    simp [sentencesOf, this, h]

theorem jsum_isNum (l : List JsNum) (h : ∀ x ∈ l, isNumB x = true) :
    isNumB (jsum l) = true := by
  induction l with
  | nil => rfl
  | cons x xs ih =>
    have hx := h x (List.mem_cons_self x xs)
    have hxs := ih (fun y hy => h y (List.mem_cons_of_mem x hy))
    simp only [jsum, List.foldr_cons]
    cases x
    · exact absurd hx (by simp [isNumB])
    · cases hjs : xs.foldr jadd (JsNum.num 0)
      · rw [jsum, hjs] at hxs; exact absurd hxs (by simp [isNumB])
      · simp [jadd, isNumB]

theorem jsum_nan_of_mem (l : List JsNum) (h : JsNum.nan ∈ l) : jsum l = JsNum.nan := by
  induction l with
  | nil => exact absurd h (List.not_mem_nil _)
  | cons x xs ih =>
    simp only [jsum, List.foldr_cons]
    rcases List.mem_cons.mp h with rfl | hx
    · rfl
    · rw [show xs.foldr jadd (JsNum.num 0) = JsNum.nan from ih hx]
      cases x <;> rfl

theorem cleanWordsOf_ne_nil_of_alpha (text : String)
    (h : (jsSplitWs text).any (fun w => w.toList.any Char.isAlpha) = true) :
    cleanWordsOf text ≠ [] := by
  obtain ⟨w, hw, hcw⟩ := List.any_eq_true.mp h
  obtain ⟨ch, hch, halpha⟩ := List.any_eq_true.mp hcw
  obtain ⟨d, hd⟩ := normCharApos_alpha halpha
  have hmem : d ∈ w.toList.filterMap normCharApos := List.mem_filterMap.mpr ⟨ch, hch, hd⟩
  have hne : normLing w ≠ "" := by
    intro hcontra
    rw [normLing, stringMk_eq_empty_iff] at hcontra
    rw [hcontra] at hmem
    exact List.not_mem_nil d hmem
  have : normLing w ∈ cleanWordsOf text := by
    apply List.mem_filter.mpr
    exact ⟨List.mem_map_of_mem normLing hw, by simpa using hne⟩
  exact List.ne_nil_of_mem this

theorem textAnalyze_breakdown_len_pos (text : String) (remote : Option ℤ) (lingOk patOk : Bool) :
    1 ≤ (textAnalyze text remote lingOk patOk).breakdown.length := by
  rcases remote with _ | h <;> simp [textAnalyze, textAnalyzeRaw]

theorem textAnalyze_overall_eq (text : String) (remote : Option ℤ) (lingOk patOk : Bool) :
    (textAnalyze text remote lingOk patOk).overallScore =
      jroundJ (jdiv (jsum ((textAnalyze text remote lingOk patOk).breakdown.map (fun b => b.2)))
        (JsNum.num ((textAnalyze text remote lingOk patOk).breakdown.length : ℚ))) := by
  simp only [textAnalyze, textAnalyzeRaw, foldl_jadd, jadd_num_zero_left, List.length_map]

/-- Claim C10: the embedded TextAnalyzer.analyze is a total function of
the input text and the settled signal values (signal-level failures are
absorbed, so analyze resolves for every input string), but numeric
well-definedness of its scores requires non-degenerate input: if some
whitespace-token of the text contains an alphabetic character and some
sentence is non-empty, every breakdown score and the overall score are
finite numbers; for empty or whitespace-only text the type-token ratio
and the sentence-length statistics are 0/0 divisions, making the
vocabulary and variation scores — and hence the overall score — NaN
rather than integers in [0, 100]. -/
theorem analyze_finite_or_nan :
    ∀ (text : String) (remote : Option ℤ) (lingOk patOk : Bool),
      ((jsSplitWs text).any (fun w => w.toList.any Char.isAlpha) = true →
       sentencesOf text ≠ [] →
        ((∀ p ∈ (textAnalyze text remote lingOk patOk).breakdown, isNumB p.2 = true) ∧
         isNumB (textAnalyze text remote lingOk patOk).overallScore = true)) ∧
      (jsTrim text = "" →
        ((analyzeLinguistics text).vocabularyScore = JsNum.nan ∧
         (analyzeLinguistics text).variationScore = JsNum.nan ∧
         (textAnalyze text remote true patOk).overallScore = JsNum.nan)) := by
  intro text remote lingOk patOk
  constructor
  · intro halpha hsent
    have hw := cleanWordsOf_ne_nil_of_alpha text halpha
    obtain ⟨a, b, c, hvoc, _, _, hvar, _, _, hdiv, _, _⟩ := ling_bounds text hw hsent
    have N1 : isNumB (analyzeLinguistics text).vocabularyScore = true := by rw [hvoc]; rfl
    have N2 : isNumB (analyzeLinguistics text).variationScore = true := by rw [hvar]; rfl
    have N3 : isNumB (analyzeLinguistics text).diversityScore = true := by rw [hdiv]; rfl
    have hall : ∀ p ∈ (textAnalyze text remote lingOk patOk).breakdown, isNumB p.2 = true := by
      rcases remote with _ | h <;> cases lingOk <;> cases patOk <;>
        (simp [textAnalyze, textAnalyzeRaw, List.forall_mem_append, List.forall_mem_cons]
         repeat' apply And.intro) <;>
        first
        | with_reducible exact N1
        | with_reducible exact N2
        | with_reducible exact N3
        | rfl
        | trivial
    refine ⟨hall, ?_⟩
    rw [textAnalyze_overall_eq]
    have hlen := textAnalyze_breakdown_len_pos text remote lingOk patOk
    have hlenq : (((textAnalyze text remote lingOk patOk).breakdown.length : ℕ) : ℚ) ≠ 0 :=
      Nat.cast_ne_zero.mpr (by omega)
    have hsum : isNumB (jsum ((textAnalyze text remote lingOk patOk).breakdown.map
        (fun b => b.2))) = true := by
      apply jsum_isNum
      intro x hx
      obtain ⟨p, hp, rfl⟩ := List.mem_map.mp hx
      exact hall p hp
    cases hjs : jsum ((textAnalyze text remote lingOk patOk).breakdown.map (fun b => b.2))
    · rw [hjs] at hsum
      exact absurd hsum (by simp [isNumB])
    · have hbne : (textAnalyze text remote lingOk patOk).breakdown ≠ [] :=
        List.ne_nil_of_length_pos (by omega)
      simp [jdiv, hlenq, hbne, jroundJ, isNumB]
  · intro htrim
    obtain ⟨hcw, hsent⟩ := degenerate_pieces text htrim
    have hvoc : (analyzeLinguistics text).vocabularyScore = JsNum.nan := by
      simp [analyzeLinguistics, hcw, jdiv, jmul, jminC, jroundJ]
    have hvar : (analyzeLinguistics text).variationScore = JsNum.nan := by
      simp [analyzeLinguistics, sentenceVariance, sentenceLengthsOf, hsent, jdiv,
        variationScoreOfVar]
    refine ⟨hvoc, hvar, ?_⟩
    rw [textAnalyze_overall_eq]
    have hmem : ("Vocabulary Richness", (analyzeLinguistics text).vocabularyScore) ∈
        (textAnalyze text remote true patOk).breakdown := by
      rcases remote with _ | h <;> simp [textAnalyze, textAnalyzeRaw]
    have hnanmem : JsNum.nan ∈ (textAnalyze text remote true patOk).breakdown.map
        (fun b => b.2) := by
      have := List.mem_map_of_mem (fun b : String × JsNum => b.2) hmem
      simpa [hvoc] using this
    rw [jsum_nan_of_mem _ hnanmem]
    rfl

/-- Witness for C10: a non-degenerate text yields finite scores
everywhere, and a whitespace-only text yields NaN linguistic scores and a
NaN overall score. -/
theorem analyze_finite_or_nan_witness :
    ((∀ p ∈ (textAnalyze "Hello there. Fine day?" (some 45) true true).breakdown,
        isNumB p.2 = true) ∧
     isNumB (textAnalyze "Hello there. Fine day?" (some 45) true true).overallScore = true) ∧
    ((analyzeLinguistics "  ").vocabularyScore = JsNum.nan ∧
     (analyzeLinguistics "  ").variationScore = JsNum.nan ∧
     (textAnalyze "  " (some 45) true true).overallScore = JsNum.nan) :=
  ⟨(analyze_finite_or_nan "Hello there. Fine day?" (some 45) true true).1
     (by decide) (by decide),
   (analyze_finite_or_nan "  " (some 45) true true).2 (by decide)⟩
